import Mathlib

/-!
Verification of the `qb_sync_service` protocol engine and qbXML codec
(190Group-Analytics-Dashboard).  The Python sources under
`qb_sync_service/` are shallowly embedded: pure helpers become Lean
functions, fallible code returns `Except String`, and the stateful
`QbwcService` methods become explicit state-passing functions over a
service-state/session-state pair with an environment record standing in
for the outside world (clock, queue client, file system, random UUIDs).
-/

set_option maxHeartbeats 1000000

/-! Python string primitives used throughout the service. -/

/-- ASCII whitespace as recognised by Python `str.strip()` (space, tab,
newline, carriage return, vertical tab, form feed; non-ASCII whitespace
is not modelled). -/
def isPySpace (c : Char) : Bool :=
  c == ' ' || c == '\t' || c == '\n' || c == '\r' || c == '\x0b' || c == '\x0c'

/-- Python `str.strip()`: drop leading and trailing whitespace. -/
def pyStrip (s : String) : String :=
  ⟨((s.data.dropWhile isPySpace).reverse.dropWhile isPySpace).reverse⟩

/-- Python `str.isdigit()` restricted to ASCII digits (the service only
feeds it version tokens and status codes). -/
def pyIsDigit (s : String) : Bool :=
  !s.data.isEmpty && s.data.all Char.isDigit

/-- Numeric value of a string of ASCII digits (Python `int(...)` on a
digit-only token). -/
def digitsToNat (cs : List Char) : Nat :=
  cs.foldl (fun a c => a * 10 + (c.toNat - 48)) 0

/-- Python `str.lower()` / `str.casefold()` (ASCII case folding; the
service compares ASCII tokens only). -/
def pyLower (s : String) : String := ⟨s.data.map Char.toLower⟩

/-- Split a character list on a single-character separator, Python
`str.split(sep)` semantics (`""` yields `[""]`, adjacent separators
yield empty pieces). -/
def splitChar (sep : Char) : List Char → List (List Char)
  | [] => [[]]
  | c :: cs =>
    let r := splitChar sep cs
    if c == sep then [] :: r
    else
      match r with
      | [] => [[c]]
      | h :: t => (c :: h) :: t

/-- Python `value.split(".")`. -/
def pySplitDot (s : String) : List String :=
  (splitChar '.' s.data).map String.mk

/-! Embedding of `service._parse_version`, `service._parse_int`,
`service._parse_qbxml_version` and `service._resolve_qbxml_version`. -/

/-- Helper for `parse_version`: Python builds the list token by token and
returns the empty tuple as soon as a non-digit token appears. -/
def parse_version_tokens : List String → Option (List Nat)
  | [] => some []
  | t :: ts =>
    let tok := pyStrip t
    if tok = "" then parse_version_tokens ts
    else if pyIsDigit tok then (parse_version_tokens ts).map (digitsToNat tok.data :: ·)
    else none

/-- Embeds `service._parse_version`. -/
def parse_version (value : String) : List Nat :=
  (parse_version_tokens (pySplitDot value)).getD []

/-- Embeds `service._parse_int`. -/
def parse_int (value : String) : Option Nat :=
  let token := pyStrip value
  if pyIsDigit token then some (digitsToNat token.data) else none

/-- Embeds `service._parse_qbxml_version`. -/
def parse_qbxml_version (value : String) : Nat × Nat :=
  match parse_version value with
  | [] => (13, 0)
  | [m] => (m, 0)
  | m :: n :: _ => (m, n)

/-- Embeds `service._resolve_qbxml_version`. -/
def resolve_qbxml_version (configuredVersion requestedMajor requestedMinor : String) :
    String :=
  let cfg := parse_qbxml_version configuredVersion
  match parse_int requestedMajor with
  | none => toString cfg.1 ++ "." ++ toString cfg.2
  | some reqMajor =>
    let reqMinor := (parse_int requestedMinor).getD 0
    if reqMajor < cfg.1 then toString reqMajor ++ "." ++ toString reqMinor
    else if reqMajor > cfg.1 then toString cfg.1 ++ "." ++ toString cfg.2
    else toString cfg.1 ++ "." ++ toString (min cfg.2 reqMinor)

/-! Embedding of the parsed-XML view the service works on.  Python's
`xml.etree.ElementTree` elements carry a tag, an attribute dictionary,
optional text and a list of children; `ET.fromstring` either yields such
a tree or raises `ParseError`.  A raw response is therefore modelled as
the response string together with the optional tree the library parser
would produce for it. -/

inductive XmlElem where
  | node (tag : String) (attrib : List (String × String)) (text : Option String)
      (children : List XmlElem)

/-- Tag of an element. -/
def XmlElem.tag : XmlElem → String
  | .node t _ _ _ => t

/-- Attribute dictionary of an element (association list; keys unique). -/
def XmlElem.attrib : XmlElem → List (String × String)
  | .node _ a _ _ => a

/-- Text of an element (`element.text`, which may be `None`). -/
def XmlElem.text : XmlElem → Option String
  | .node _ _ x _ => x

/-- Direct children of an element (`for child in element`). -/
def XmlElem.children : XmlElem → List XmlElem
  | .node _ _ _ cs => cs

mutual

/-- Document-order traversal including the element itself
(`element.iter()`). -/
def XmlElem.iter : XmlElem → List XmlElem
  | .node t a x cs => .node t a x cs :: XmlElem.iterList cs

/-- Concatenated traversals of a list of elements. -/
def XmlElem.iterList : List XmlElem → List XmlElem
  | [] => []
  | c :: cs => XmlElem.iter c ++ XmlElem.iterList cs

end

/-- Characters after the first occurrence of `sep` (Python
`s.split(sep, 1)[1]` when `sep` occurs). -/
def afterFirst (sep : Char) : List Char → List Char
  | [] => []
  | c :: cs => if c == sep then cs else afterFirst sep cs

/-- Embeds `_localname` (shared by `qbxml.py` and `service.py`): strip a
namespace prefix up to the first `}`. -/
def localname (tag : String) : String :=
  if tag.data.contains '}' then ⟨afterFirst '}' tag.data⟩ else tag

/-- Python `element.attrib.get(key, default)`. -/
def attribGet (attrib : List (String × String)) (key dflt : String) : String :=
  match attrib.lookup key with
  | some v => v
  | none => dflt

/-- Python `key in element.attrib`. -/
def attribHas (attrib : List (String × String)) (key : String) : Bool :=
  (attrib.lookup key).isSome

/-- Python `s.endswith(suffix)` (computable form). -/
def strEndsWith (s sfx : String) : Bool :=
  sfx.data.isSuffixOf s.data

/-- Python `name[:-2]`. -/
def dropLast2 (s : String) : String :=
  ⟨s.data.dropLast.dropLast⟩

/-- A raw qbXML response: the wire string together with the tree
`ET.fromstring` would produce for it (`none` when parsing raises
`ParseError`). -/
structure RawXml where
  text : String
  parsed : Option XmlElem

/-- Embeds `qbxml.QbxmlResponseResult`. -/
structure QbxmlResponseResult where
  success : Bool
  status_code : String
  status_severity : String
  status_message : String
  txn_id : Option String
  txn_type : Option String
deriving DecidableEq

/-- Embeds `service._is_qb_success_response`, which is also the inline
success test at the end of `qbxml.parse_qbxml_response`. -/
def is_qb_success_response (statusCode statusSeverity : String) : Bool :=
  (statusCode == "0" || statusCode == "1") && !(pyLower statusSeverity == "error")

/-- The `*Rs` search loop of `parse_qbxml_response`: first element in
document order whose local tag name ends in `Rs` and that carries a
`statusCode` attribute. -/
def findRsNode (root : XmlElem) : Option XmlElem :=
  root.iter.find? fun el => strEndsWith (localname el.tag) "Rs" && attribHas el.attrib "statusCode"

/-- The `TxnID` search loop of `parse_qbxml_response`: first element
under (and including) the status node with local name `TxnID` and
non-blank text. -/
def findTxnId (rs : XmlElem) : Option String :=
  (rs.iter.find? fun el => localname el.tag == "TxnID" && !(pyStrip (el.text.getD "") == "")).map
    fun el => pyStrip (el.text.getD "")

/-- Embeds `qbxml.parse_qbxml_response`.  The Python function returns a
result object on every input (all failure shapes are encoded in the
result, none raises); totality of this Lean function mirrors that. -/
def parse_qbxml_response (resp : RawXml) : QbxmlResponseResult :=
  if pyStrip resp.text = "" then
    ⟨false, "EMPTY_RESPONSE", "Error", "Empty qbXML response.", none, none⟩
  else
    match resp.parsed with
    | none =>
      ⟨false, "PARSE_ERROR", "Error", "Unable to parse qbXML response.", none, none⟩
    | some root =>
      match findRsNode root with
      | none =>
        ⟨false, "NO_RS_NODE", "Error", "No *Rs node found in qbXML response.", none, none⟩
      | some rs =>
        let statusCode := attribGet rs.attrib "statusCode" "UNKNOWN"
        let statusSeverity := attribGet rs.attrib "statusSeverity" "Error"
        let statusMessage := attribGet rs.attrib "statusMessage" ""
        let nodeName := localname rs.tag
        let txnType := if strEndsWith nodeName "Rs" then some (dropLast2 nodeName) else none
        ⟨is_qb_success_response statusCode statusSeverity, statusCode, statusSeverity,
          statusMessage, findTxnId rs, txnType⟩

/-! Data model: inventory events, lines, item-creation specs and the
service configuration.  Event/line values arrive as JSON-decoded Python
dicts; the fields the service reads are modelled as optional strings
(numeric JSON values are modelled by the string `str(value)` would
produce, since the code only ever consumes them through `str`). -/

/-- One line of an inventory event. -/
structure Line where
  qbItemFullName : Option String := none
  sku : Option String := none
  qty : Option String := none
  newQty : Option String := none
  fromSiteFullName : Option String := none
  toSiteFullName : Option String := none
  siteFullName : Option String := none
  qbAccountFullName : Option String := none
  itemIncomeAccountFullName : Option String := none
  itemCogsAccountFullName : Option String := none
  itemAssetAccountFullName : Option String := none
  itemSalesDescription : Option String := none
  itemPurchaseDescription : Option String := none
  itemSalesPrice : Option String := none
  itemPurchaseCost : Option String := none
  itemIsActive : Option Bool := none
deriving DecidableEq

/-- An inventory event as fetched from the ledger queue. -/
structure Event where
  eventId : Option String := none
  eventType : Option String := none
  qbTxnType : Option String := none
  effectiveDate : Option String := none
  memo : Option String := none
  createdBy : Option String := none
  idempotencyKey : Option String := none
  lines : List Line := []
deriving DecidableEq

/-- Embeds the dict built by `_build_missing_item_create_spec`. -/
structure CreateSpec where
  eventId : String
  requestId : String
  itemFullName : String
  incomeAccountFullName : String
  cogsAccountFullName : String
  assetAccountFullName : String
  salesDesc : String
  purchaseDesc : String
  salesPrice : Option String := none
  purchaseCost : Option String := none
  isActive : Option Bool := none
deriving DecidableEq

/-- The part of `QbSyncConfig` the protocol engine reads. -/
structure Config where
  qbwcUsername : String := ""
  qbwcPassword : String := ""
  qbCompanyFile : String := ""
  qbxmlVersion : String := "13.0"
  defaultAdjustmentAccount : String := "Inventory Adjustments"
  serverVersion : String := ""
  minClientVersion : String := ""
  qbItemsCsv : String := ""
  qbItemsSource : String := "csv"
  qbItemsRefreshMinutes : Int := 60
  qbItemsQueryMaxReturned : Int := 1000
  qbItemsQueryMode : String := "auto"
  qbItemsAutoCreate : Bool := true
  qbItemIncomeAccountDefault : String := ""
  qbItemCogsAccountDefault : String := ""
  qbItemAssetAccountDefault : String := ""
deriving DecidableEq

/-- Python `a or b` on optional strings (`None` and `""` both fall
through). -/
def orTextOpt (a b : Option String) : Option String :=
  match a with
  | some s => if s = "" then b else some s
  | none => b

/-- Python `a or b` on plain strings. -/
def orText (a b : String) : String :=
  if a = "" then b else a

/-- Embeds `service._optional_text`. -/
def optionalText (v : Option String) : String :=
  pyStrip (v.getD "")

/-- Embeds `service._line_item_full_name` (the non-raising variant used
for auto-create candidates). -/
def line_item_full_name (line : Line) : String :=
  pyStrip ((orTextOpt line.qbItemFullName line.sku).getD "")

/-- Embeds `qbxml._line_item_full_name` (the variant that raises
`ValueError` on a blank name). -/
def line_item_full_name_strict (line : Line) : Except String String :=
  let value := pyStrip ((orTextOpt line.qbItemFullName line.sku).getD "")
  if value = "" then .error "Event line is missing qbItemFullName/sku." else .ok value

/-- Deterministic digest standing in for `uuid.uuid5`.  The service only
relies on `uuid5` being a fixed function of its namespace and name (it
is a SHA-1 digest); the digest itself is irrelevant to every claim, so
it is modelled as an injective encoding of the pair. -/
def uuid5String (namespaceId name : String) : String :=
  "uuid5:" ++ namespaceId ++ ":" ++ name

/-- Stand-in for `uuid.NAMESPACE_URL`. -/
def NAMESPACE_URL : String := "6ba7a811-9dad-11d1-80b4-00c04fd430c8"

/-- Python `", ".join(xs)` (structural, kernel-reducible). -/
def joinSep (sep : String) : List String → String
  | [] => ""
  | [x] => x
  | x :: xs => x ++ sep ++ joinSep sep xs

/-- The request seed string `f"{event_id}|item_add|{item_full_name.casefold()}|{ordinal}"`. -/
def itemCreateRequestSeed (eventId itemFullName : String) (ordinal : Nat) : String :=
  eventId ++ "|item_add|" ++ pyLower itemFullName ++ "|" ++ toString ordinal

/-- Embeds `QbwcService._build_missing_item_create_spec`. -/
def build_missing_item_create_spec (cfg : Config) (event : Event) (line : Line)
    (ordinal : Nat) : Except String CreateSpec :=
  let itemFullName := line_item_full_name line
  if itemFullName = "" then .error "Missing qbItemFullName/sku for auto-create candidate."
  else
    let income := orText (optionalText line.itemIncomeAccountFullName) cfg.qbItemIncomeAccountDefault
    let cogs := orText (optionalText line.itemCogsAccountFullName) cfg.qbItemCogsAccountDefault
    let asset := orText (optionalText line.itemAssetAccountFullName) cfg.qbItemAssetAccountDefault
    let missingFields :=
      (if income = "" then ["income account"] else []) ++
        (if cogs = "" then ["COGS account"] else []) ++
        (if asset = "" then ["asset account"] else [])
    if missingFields ≠ [] then
      let skuValue := orText (optionalText line.sku) itemFullName
      .error ("Cannot auto-create item " ++ skuValue ++ ": missing " ++
        joinSep ", " missingFields ++ " mapping.")
    else
      let eventId := optionalText event.eventId
      if eventId = "" then .error "Cannot auto-create missing item for an event without eventId."
      else
        let requestId := uuid5String NAMESPACE_URL (itemCreateRequestSeed eventId itemFullName ordinal)
        let salesDescription := orText (optionalText line.itemSalesDescription)
          (orText (optionalText line.sku) itemFullName)
        let purchaseDescription := orText (optionalText line.itemPurchaseDescription) salesDescription
        .ok
          { eventId := eventId
            requestId := requestId
            itemFullName := itemFullName
            incomeAccountFullName := income
            cogsAccountFullName := cogs
            assetAccountFullName := asset
            salesDesc := salesDescription
            purchaseDesc := purchaseDescription
            salesPrice := line.itemSalesPrice
            purchaseCost := line.itemPurchaseCost
            isActive := line.itemIsActive }

/-! Embedding of `qbxml._format_number`.  The function feeds `str(value)`
to `decimal.Decimal`, normalizes it under the default context
(precision 28, ROUND_HALF_EVEN) and renders it with format code `"f"`.
The decimal string grammar (sign, digits with at most one point,
optional exponent, the special forms `NaN`/`sNaN`/`Infinity`, leading
and trailing whitespace and underscores removed) and the normalize /
fixed-point-format semantics are modelled below; the context's exponent
limits (`Emax`/`Emin`, which only matter for exponents beyond 10^6) are
not modelled. -/

/-- ASCII decimal digit test (Python's decimal grammar digit). -/
def isDigitChar (c : Char) : Bool :=
  48 ≤ c.toNat && c.toNat ≤ 57

/-- Digit value of an ASCII digit character. -/
def digitOfChar (c : Char) : Nat := c.toNat - 48

/-- Digit values of a run of ASCII digit characters. -/
def charsToDigits (cs : List Char) : List Nat := cs.map digitOfChar

/-- Character of a decimal digit (table form so that proofs can reason
by cases on the ten digits). -/
def digitChar : Nat → Char
  | 0 => '0' | 1 => '1' | 2 => '2' | 3 => '3' | 4 => '4'
  | 5 => '5' | 6 => '6' | 7 => '7' | 8 => '8' | 9 => '9'
  | _ => '0'

/-- Characters of a digit list. -/
def digitsChars (ds : List Nat) : List Char := ds.map digitChar

/-- Numeric value of a digit list (most significant first). -/
def natOfDigits (ds : List Nat) : Nat :=
  ds.foldl (fun a d => a * 10 + d) 0

/-- Fuel-driven digit extraction (structural, so it kernel-reduces). -/
def natDigitsFuel : Nat → Nat → List Nat → List Nat
  | 0, _, acc => acc
  | fuel + 1, n, acc => if n = 0 then acc else natDigitsFuel fuel (n / 10) (n % 10 :: acc)

/-- Decimal digits of a natural number, most significant first. -/
def natDigits (n : Nat) : List Nat :=
  if n = 0 then [0] else natDigitsFuel (n + 1) n []

/-- A Python `decimal.Decimal` value: finite (sign, coefficient digits,
exponent), infinity, quiet NaN or signaling NaN. -/
inductive PyDecimal where
  | finite (negative : Bool) (digits : List Nat) (exp : Int)
  | inf (negative : Bool)
  | qnan (negative : Bool) (payload : List Nat)
  | snan (negative : Bool) (payload : List Nat)
deriving DecidableEq

/-- Optional leading sign of a decimal numeric string. -/
def parseSign : List Char → Bool × List Char
  | [] => (false, [])
  | c :: cs =>
    if c == '+' then (false, cs)
    else if c == '-' then (true, cs)
    else (false, c :: cs)

/-- Split a character list at the first exponent indicator `e`/`E`. -/
def splitAtExpChar : List Char → List Char × Option (List Char)
  | [] => ([], none)
  | c :: cs =>
    if c == 'e' || c == 'E' then ([], some cs)
    else
      let r := splitAtExpChar cs
      (c :: r.1, r.2)

/-- Worker for `parseMantissa`: `ip` is the leading digit run, the
second argument is what remains after it. -/
def parseMantissaAux (ip : List Char) : List Char → Option (List Nat × Nat)
  | [] => if ip.isEmpty then none else some (charsToDigits ip, 0)
  | c :: fp =>
    if c = '.' then
      if fp.all isDigitChar && (!ip.isEmpty || !fp.isEmpty) then
        some (charsToDigits (ip ++ fp), fp.length)
      else none
    else none

/-- Mantissa of a decimal numeric string: digits with at most one point
and at least one digit overall.  Returns the digit values (integer part
followed by fractional part) and the fractional length. -/
def parseMantissa (cs : List Char) : Option (List Nat × Nat) :=
  parseMantissaAux (cs.takeWhile isDigitChar) (cs.dropWhile isDigitChar)

/-- Exponent part of a decimal numeric string (optional sign, then at
least one digit). -/
def parseExpPart (cs : List Char) : Option Int :=
  let sgn := parseSign cs
  if sgn.2.isEmpty || !sgn.2.all isDigitChar then none
  else some (if sgn.1 then -(digitsToNat sgn.2 : Int) else (digitsToNat sgn.2 : Int))

/-- Leading zeros of a coefficient are not significant. -/
def stripLeadingZeros (ds : List Nat) : List Nat := ds.dropWhile (· == 0)

/-- Exponent of a decimal numeric string: absent means 0. -/
def parseExpOpt : Option (List Char) → Option Int
  | none => some 0
  | some ecs => parseExpPart ecs

/-- Numeric (non-special) body of a decimal numeric string, after the
sign has been taken. -/
def parseNumericBody (neg : Bool) (cs : List Char) : Option PyDecimal :=
  match parseMantissa (splitAtExpChar cs).1, parseExpOpt (splitAtExpChar cs).2 with
  | some (rawDigits, fracLen), some ev =>
    some (.finite neg
      (if (stripLeadingZeros rawDigits).isEmpty then [0] else stripLeadingZeros rawDigits)
      (ev - fracLen))
  | _, _ => none

/-- Special forms and dispatch of the decimal numeric string, after the
sign has been taken (`Infinity`, `NaN`, `sNaN` case-insensitive, else
the numeric body). -/
def parseAfterSign (neg : Bool) (cs : List Char) : Option PyDecimal :=
  if cs.map Char.toLower = "inf".data || cs.map Char.toLower = "infinity".data then
    some (.inf neg)
  else if "snan".data.isPrefixOf (cs.map Char.toLower) then
    if (cs.drop 4).all isDigitChar then some (.snan neg (charsToDigits (cs.drop 4))) else none
  else if "nan".data.isPrefixOf (cs.map Char.toLower) then
    if (cs.drop 3).all isDigitChar then some (.qnan neg (charsToDigits (cs.drop 3))) else none
  else parseNumericBody neg cs

/-- The `decimal.Decimal` string constructor: strip whitespace, drop
underscores, take an optional sign, then either a special form or a
numeric body; anything else raises `InvalidOperation` (modelled as
`none`). -/
def parsePyDecimal (value : String) : Option PyDecimal :=
  parseAfterSign
    (parseSign ((pyStrip value).data.filter (fun c => !(c == '_')))).1
    (parseSign ((pyStrip value).data.filter (fun c => !(c == '_')))).2

/-- Coefficient with trailing zeros removed. -/
def stripTrailingZeros (ds : List Nat) : List Nat :=
  ((ds.reverse.dropWhile (· == 0)).reverse)

/-- Number of trailing zeros of a coefficient. -/
def trailingZeroCount (ds : List Nat) : Nat :=
  (ds.reverse.takeWhile (· == 0)).length

/-- Round a coefficient with more than 28 digits to 28 significant
digits, ROUND_HALF_EVEN (the default context of `normalize`). -/
def round28 (ds : List Nat) (e : Int) : List Nat × Int :=
  let k := ds.length - 28
  let c := natOfDigits ds
  let p := 10 ^ k
  let q := c / p
  let r := c % p
  let half := 5 * 10 ^ (k - 1)
  let q' := if half < r ∨ (r = half ∧ q % 2 = 1) then q + 1 else q
  if q' = 10 ^ 28 then (natDigits (10 ^ 27), e + k + 1) else (natDigits q', e + k)

/-- Trailing-zero stripping of `normalize` on a finite, already
context-rounded value (zero canonicalizes to exponent 0). -/
def decNormalizeFinite (neg : Bool) (ds : List Nat) (e : Int) : Except String PyDecimal :=
  if natOfDigits ds = 0 then .ok (.finite neg [0] 0)
  else .ok (.finite neg (stripTrailingZeros ds) (e + trailingZeroCount ds))

/-- `Decimal.normalize()` under the default context: signaling NaNs
raise `InvalidOperation`; other specials pass through; finite values are
first rounded to the context precision of 28 significant digits, then
trailing zeros are stripped into the exponent. -/
def decNormalize : PyDecimal → Except String PyDecimal
  | .snan _ _ => .error "InvalidOperation: cannot normalize a signaling NaN."
  | .qnan neg p => .ok (.qnan neg p)
  | .inf neg => .ok (.inf neg)
  | .finite neg ds e =>
    if 28 < ds.length then decNormalizeFinite neg (round28 ds e).1 (round28 ds e).2
    else decNormalizeFinite neg ds e

/-- Characters of `format(Decimal(...), "f")` for a finite value. -/
def formatFChars (neg : Bool) (ds : List Nat) : Int → List Char
  | .ofNat n => (if neg then ['-'] else []) ++ digitsChars ds ++ List.replicate n '0'
  | .negSucc m =>
    if m + 1 < ds.length then
      (if neg then ['-'] else []) ++ digitsChars (ds.take (ds.length - (m + 1))) ++
        '.' :: digitsChars (ds.drop (ds.length - (m + 1)))
    else
      (if neg then ['-'] else []) ++ '0' :: '.' ::
        (List.replicate (m + 1 - ds.length) '0' ++ digitsChars ds)

/-- `format(dec, "f")` on any decimal value. -/
def pyFormatF : PyDecimal → String
  | .finite neg ds e => ⟨formatFChars neg ds e⟩
  | .inf neg => (if neg then "-" else "") ++ "Infinity"
  | .qnan neg p => (if neg then "-" else "") ++ "NaN" ++ ⟨digitsChars p⟩
  | .snan neg p => (if neg then "-" else "") ++ "sNaN" ++ ⟨digitsChars p⟩

/-- Python `s.rstrip(c)` for a single strip character. -/
def rstripChar (c : Char) (s : String) : String :=
  ⟨(s.data.reverse.dropWhile (· == c)).reverse⟩

/-- Python `a or b` on plain strings. -/
def orText0 (a b : String) : String :=
  if a = "" then b else a

/-- Rendering step of `_format_number` after `normalize`: fixed-point
format, strip trailing zeros and a trailing point when a point is
present, fall back to `"0"` for an empty result. -/
def format_number_render (normalized : PyDecimal) : String :=
  orText0
    (if (pyFormatF normalized).data.contains '.' then
      rstripChar '.' (rstripChar '0' (pyFormatF normalized))
    else pyFormatF normalized)
    "0"

/-- Embeds `qbxml._format_number` on `str(value)`.  The `except` clause
of the source catches the constructor's `InvalidOperation`/`ValueError`
and re-raises `ValueError`; `normalize` on a signaling NaN raises
outside that clause — both are build errors for the caller, modelled as
`Except.error`. -/
def format_number (value : String) : Except String String :=
  Option.elim (parsePyDecimal value)
    (.error ("Invalid numeric value for qbXML quantity: " ++ value))
    (fun dec => (decNormalize dec).map format_number_render)

/-- Exact rational value of a finite decimal (`none` for specials). -/
def decValue : PyDecimal → Option ℚ
  | .finite neg ds e =>
    let c : ℚ := (natOfDigits ds : ℚ)
    let mag : ℚ :=
      match e with
      | .ofNat n => c * (10 : ℚ) ^ n
      | .negSucc n => c / (10 : ℚ) ^ (n + 1)
    some (if neg then -mag else mag)
  | _ => none

deriving instance DecidableEq for Except

/-- Rational value of a finite decimal triple, in `zpow` form for
algebraic reasoning. -/
def valQ (neg : Bool) (ds : List Nat) (e : Int) : ℚ :=
  (if neg then (-1 : ℚ) else 1) * (natOfDigits ds : ℚ) * (10 : ℚ) ^ e

/-- The output-shape property the spec ascribes to rendered quantities:
non-empty, no trailing decimal point, and no trailing zero when a
decimal point is present. -/
def trimmedNumeral (out : String) : Prop :=
  out.data ≠ [] ∧ (∀ x, out.data.getLast? = some x → x ≠ '.') ∧
    ('.' ∈ out.data → ∀ x, out.data.getLast? = some x → x ≠ '0')

/-! Embedding of the qbXML builders (`qbxml.py`): XML escaping, memo and
account helpers, the transfer and adjustment request builders. -/

/-- Per-character expansion of `xml.sax.saxutils.escape`. -/
def escChar (c : Char) : List Char :=
  if c = '&' then "&amp;".data
  else if c = '<' then "&lt;".data
  else if c = '>' then "&gt;".data
  else [c]

/-- Embeds `xml.sax.saxutils.escape` (escapes `&`, `<`, `>`). -/
def escapeXml (s : String) : String :=
  ⟨(s.data.map escChar).flatten⟩

/-- Python `str(value)` on an optional JSON scalar (values are modelled
by the string `str` renders them to; `None` renders as `"None"`). -/
def pyStr (v : Option String) : String := v.getD "None"

/-- Python `s.upper()` (ASCII). -/
def pyUpper (s : String) : String := ⟨s.data.map Char.toUpper⟩

/-- Embeds `qbxml._memo_for_event`. -/
def memo_for_event (event : Event) : String :=
  let pieces := [event.eventType.getD "", event.eventId.getD "",
    event.createdBy.getD "", event.memo.getD ""]
  let joined := pyStrip (joinSep " " (pieces.filter (· ≠ "")))
  ⟨joined.data.take 4095⟩

/-- Fuel-driven two-character replacement (Python `str.replace` with a
two-character pattern, left-to-right, non-overlapping). -/
def replacePairFuel (a b r : Char) : Nat → List Char → List Char
  | _, [] => []
  | 0, cs => cs
  | _ + 1, [c] => [c]
  | fuel + 1, c1 :: c2 :: rest =>
    if c1 = a ∧ c2 = b then r :: replacePairFuel a b r fuel rest
    else c1 :: replacePairFuel a b r fuel (c2 :: rest)

/-- Embeds `qbxml._normalize_account_full_name`. -/
def normalize_account_full_name (value : String) : String :=
  let account := pyStrip value
  if account = "" then account
  else
    let account : String := ⟨replacePairFuel 'Â' '·' '·' account.data.length account.data⟩
    let account : String := ⟨account.data.map (fun c => if c = '’' then '\'' else c)⟩
    if account.data.contains ':' then
      let root := pyStrip ⟨account.data.takeWhile (· ≠ ':')⟩
      if "cog".data.isPrefixOf (pyLower root).data then root else account
    else account

/-- Embeds `qbxml._qbxml_version_major`. -/
def qbxml_version_major (version : String) : Nat :=
  let token := (pySplitDot (pyStrip version)).headD ""
  if pyIsDigit token then digitsToNat token.data else 13

/-- Embeds `qbxml._external_guid_for_event`; `freshUuid` is the value
`uuid.uuid4()` would produce (only used when both idempotency key and
event id are blank). -/
def external_guid_for_event (event : Event) (freshUuid : String) : String :=
  let source := pyStrip ((orTextOpt event.idempotencyKey event.eventId).getD "")
  let source := if source = "" then freshUuid else source
  "\x7b" ++ pyUpper (uuid5String NAMESPACE_URL ("190group:" ++ source)) ++ "\x7d"

/-- The distinct non-empty site names collected by
`qbxml._single_site_name`, in first-appearance order (the source uses a
`set`; only emptiness, cardinality one, and the unique element are ever
consumed). -/
def siteNamesFrom (field : Line → Option String) : List String → List Line → List String
  | acc, [] => acc
  | acc, l :: ls =>
    let v := pyStrip ((field l).getD "")
    siteNamesFrom field (if v ≠ "" ∧ v ∉ acc then acc ++ [v] else acc) ls

/-- Distinct non-empty values of a site field across an event's lines. -/
def siteNames (field : Line → Option String) (lines : List Line) : List String :=
  siteNamesFrom field [] lines

/-- Embeds `qbxml._single_site_name`. -/
def single_site_name (lines : List Line) (field : Line → Option String)
    (description : String) (required : Bool) : Except String String :=
  match siteNames field lines with
  | [] =>
    if required then .error (description ++ " is missing from all lines.") else .ok ""
  | [x] => .ok x
  | _ :: _ :: _ =>
    .error (description ++ " must be the same for all lines in a single event.")

/-- Error-propagating element-wise map, modelling the request-building
loops (the first failing line aborts the build). -/
def mapME (f : α → Except String β) : List α → Except String (List β)
  | [] => .ok []
  | x :: xs =>
    match f x, mapME f xs with
    | .ok y, .ok ys => .ok (y :: ys)
    | .error e, _ => .error e
    | .ok _, .error e => .error e

/-- One iteration of the transfer line loop. -/
def renderTransferLine (line : Line) : Except String String :=
  match line_item_full_name_strict line with
  | .error e => .error e
  | .ok nm =>
    match format_number (pyStr line.qty) with
    | .error e => .error e
    | .ok q =>
      .ok ("<TransferInventoryLineAdd><ItemRef><FullName>" ++ escapeXml nm ++
        "</FullName></ItemRef><QuantityToTransfer>" ++ q ++
        "</QuantityToTransfer></TransferInventoryLineAdd>")

/-- Embeds `qbxml._build_transfer_request`. -/
def build_transfer_request (event : Event) (requestId : String) : Except String String :=
  if event.lines = [] then .error "Transfer event has no lines."
  else
    let memo := escapeXml (memo_for_event event)
    let txnDate := escapeXml (event.effectiveDate.getD "")
    if txnDate = "" then .error "Transfer event missing effectiveDate."
    else
      match single_site_name event.lines Line.fromSiteFullName "Transfer from site mapping"
        true with
      | .error e => .error e
      | .ok fromSite =>
        match single_site_name event.lines Line.toSiteFullName "Transfer to site mapping"
          true with
        | .error e => .error e
        | .ok toSite =>
          match mapME renderTransferLine event.lines with
          | .error e => .error e
          | .ok lineXml =>
            .ok ("<TransferInventoryAddRq requestID=\"" ++ escapeXml requestId ++ "\">" ++
              "<TransferInventoryAdd>" ++
              "<TxnDate>" ++ txnDate ++ "</TxnDate>" ++
              "<FromInventorySiteRef><FullName>" ++ escapeXml fromSite ++
                "</FullName></FromInventorySiteRef>" ++
              "<ToInventorySiteRef><FullName>" ++ escapeXml toSite ++
                "</FullName></ToInventorySiteRef>" ++
              "<Memo>" ++ memo ++ "</Memo>" ++
              String.join lineXml ++
              "</TransferInventoryAdd>" ++
              "</TransferInventoryAddRq>")

/-- Account resolution of `_build_adjustment_request`: the first
non-blank per-line override, else the configured default. -/
def adjustment_account_name (lines : List Line) (defaultAccount : String) : String :=
  (((lines.map (fun l => pyStrip ((l.qbAccountFullName).getD ""))).filter (· ≠ "")).headD
    (pyStrip defaultAccount))

/-- One iteration of the adjustment line loop. -/
def renderAdjustmentLine (line : Line) : Except String String :=
  match line_item_full_name_strict line with
  | .error e => .error e
  | .ok nm =>
    match
      (match line.newQty with
       | some _ =>
         (format_number (pyStr line.newQty)).map
           (fun q => "<NewQuantity>" ++ q ++ "</NewQuantity>")
       | none =>
         (format_number (pyStr line.qty)).map
           (fun q => "<QuantityDifference>" ++ q ++ "</QuantityDifference>")) with
    | .error e => .error e
    | .ok qtyXml =>
      .ok ("<InventoryAdjustmentLineAdd><ItemRef><FullName>" ++ escapeXml nm ++
        "</FullName></ItemRef><QuantityAdjustment>" ++ qtyXml ++
        "</QuantityAdjustment></InventoryAdjustmentLineAdd>")

/-- The site-reference fragment of an adjustment request. -/
def adjustment_site_xml (siteName : String) (qbxmlMajor : Nat) : String :=
  if siteName ≠ "" ∧ 10 ≤ qbxmlMajor then
    "<InventorySiteRef><FullName>" ++ escapeXml siteName ++ "</FullName></InventorySiteRef>"
  else ""

/-- The external-GUID fragment of an adjustment request. -/
def external_guid_xml (event : Event) (qbxmlVersion freshUuid : String) : String :=
  if 9 ≤ qbxml_version_major qbxmlVersion then
    "<ExternalGUID>" ++ escapeXml (external_guid_for_event event freshUuid) ++ "</ExternalGUID>"
  else ""

/-- Embeds `qbxml._build_adjustment_request`. -/
def build_adjustment_request (event : Event) (requestId defaultAdjustmentAccount
    qbxmlVersion freshUuid : String) : Except String String :=
  if event.lines = [] then .error "Adjustment event has no lines."
  else
    let memo := escapeXml (memo_for_event event)
    let txnDate := escapeXml (event.effectiveDate.getD "")
    if txnDate = "" then .error "Adjustment event missing effectiveDate."
    else
      let accountName :=
        normalize_account_full_name (adjustment_account_name event.lines defaultAdjustmentAccount)
      if accountName = "" then
        .error "Adjustment event has no account mapping and no default account configured."
      else
        match single_site_name event.lines Line.siteFullName "Adjustment site mapping"
          (decide (10 ≤ qbxml_version_major qbxmlVersion)) with
        | .error e => .error e
        | .ok siteName =>
          match mapME renderAdjustmentLine event.lines with
          | .error e => .error e
          | .ok lineXml =>
            .ok ("<InventoryAdjustmentAddRq requestID=\"" ++ escapeXml requestId ++ "\">" ++
              "<InventoryAdjustmentAdd>" ++
              "<AccountRef><FullName>" ++ escapeXml accountName ++ "</FullName></AccountRef>" ++
              "<TxnDate>" ++ txnDate ++ "</TxnDate>" ++
              adjustment_site_xml siteName (qbxml_version_major qbxmlVersion) ++
              "<Memo>" ++ memo ++ "</Memo>" ++
              external_guid_xml event qbxmlVersion freshUuid ++
              String.join lineXml ++
              "</InventoryAdjustmentAdd>" ++
              "</InventoryAdjustmentAddRq>")

/-- Embeds `qbxml.build_qbxml_for_event`. -/
def build_qbxml_for_event (event : Event) (qbxmlVersion defaultAdjustmentAccount
    freshUuid : String) : Except String String :=
  let eventId := event.eventId.getD ""
  if eventId = "" then .error "Event is missing eventId."
  else
    let qbxmlMajor := qbxml_version_major qbxmlVersion
    let requestBody :=
      if event.eventType = some "transfer" then
        if qbxmlMajor < 10 then
          Except.error "Transfer events require qbXML version 10.0 or higher."
        else build_transfer_request event eventId
      else if event.eventType = some "adjustment" then
        build_adjustment_request event eventId defaultAdjustmentAccount qbxmlVersion freshUuid
      else Except.error "Unsupported event type for qbXML."
    requestBody.map (fun requestXml =>
      "<?xml version=\"1.0\" encoding=\"utf-8\"?>" ++
      "<?qbxml version=\"" ++ escapeXml qbxmlVersion ++ "\"?>" ++
      "<QBXML>" ++
      "<QBXMLMsgsRq onError=\"stopOnError\">" ++
      requestXml ++
      "</QBXMLMsgsRq>" ++
      "</QBXML>")

/-- A one-line transfer event used as a concrete instance. -/
def C4evGood : Event :=
  { eventId := some "e1", eventType := some "transfer", effectiveDate := some "2026-01-02",
    lines := [{ sku := some "A", qty := some "2.50", fromSiteFullName := some "W1",
                toSiteFullName := some "W2" }] }

/-- A line shipping from site `W1`. -/
def C4lineFromW1 : Line :=
  { sku := some "A", qty := some "1", fromSiteFullName := some "W1",
    toSiteFullName := some "W2" }

/-- A line shipping from site `W3`. -/
def C4lineFromW3 : Line :=
  { sku := some "B", qty := some "1", fromSiteFullName := some "W3",
    toSiteFullName := some "W2" }

/-- A transfer event whose two lines disagree on the source site. -/
def C4evDiff : Event :=
  { eventId := some "e1", eventType := some "transfer", effectiveDate := some "2026-01-02",
    lines := [C4lineFromW1, C4lineFromW3] }

/-! Substring machinery used to settle site-reference presence/absence
in the adjustment request. -/

/-- Does `pat` occur as a contiguous substring of `s`? -/
def containsSub (pat : List Char) : List Char → Bool
  | [] => pat.isEmpty
  | c :: rest => pat.isPrefixOf (c :: rest) || containsSub pat rest

/-- A fragment is good for a pattern when the pattern does not occur
inside it and no nonempty proper prefix of the pattern is a suffix of
it (so no occurrence can start inside the fragment at all). -/
def GoodFrag (pat f : List Char) : Prop :=
  containsSub pat f = false ∧
  ∀ k, 0 < k → k < pat.length → ¬ pat.take k <:+ f

/-- Boolean straddle check for concrete fragments. -/
def noStraddleB (pat f : List Char) : Bool :=
  (List.range pat.length).all fun k => k == 0 || !((pat.take k).isSuffixOf f)

/-- The tag whose presence claim C5 is about. -/
def siteRefPat : List Char := "<InventorySiteRef>".data

/-- A one-line adjustment event carrying a site name. -/
def C5ev : Event :=
  { eventId := some "e1", eventType := some "adjustment", effectiveDate := some "2026-01-02",
    lines := [{ sku := some "A", qty := some "2", siteFullName := some "Main" }] }

/-- A one-line adjustment event with no site name on any line. -/
def C5evNoSite : Event :=
  { eventId := some "e1", eventType := some "adjustment", effectiveDate := some "2026-01-02",
    lines := [{ sku := some "A", qty := some "2" }] }

/-! Embedding of the service state machine (`service.py`): the session
and cache state touched by `send_request_xml` / `receive_response_xml`.
Wall-clock and monotonic timestamps, debug-file persistence and the CSV
cache file are I/O side effects none of the claims mention; they are
omitted from the state.  Python `set`s are modelled as insertion-ordered
duplicate-free lists. -/

/-- Membership-checked insertion (Python `set.add`). -/
def setAdd (s : List String) (x : String) : List String :=
  if x ∈ s then s else s ++ [x]

/-- Python `set.update` (left set extended with the right one). -/
def setUnion (s t : List String) : List String :=
  t.foldl setAdd s

/-- Embeds `service._normalize_item_key` (`casefold` coincides with
lowercasing on the item names the service handles). -/
def normalize_item_key (value : String) : String :=
  pyLower (pyStrip value)

/-- Python `value.rsplit(":", 1)[1]` for a string containing a colon. -/
def rsplitColonTail (s : String) : String :=
  ⟨(s.data.reverse.takeWhile (· ≠ ':')).reverse⟩

/-- Embeds `service._add_item_key_variants`. -/
def add_item_key_variants (keys : List String) (rawValue : String) : List String :=
  if pyStrip rawValue = "" then keys
  else
    let value := pyStrip rawValue
    let keys1 := if normalize_item_key value ≠ "" then setAdd keys (normalize_item_key value)
      else keys
    if value.data.contains ':' then
      if pyStrip (rsplitColonTail value) ≠ "" then
        setAdd keys1 (normalize_item_key (pyStrip (rsplitColonTail value)))
      else keys1
    else keys1

/-- Embeds `service._is_duplicate_item_name_conflict`. -/
def is_duplicate_item_name_conflict (statusCode : String) : Bool :=
  pyStrip statusCode == "3100"

/-- The service-level cache and item-query state of `QbwcService`. -/
structure Svc where
  cachedKeys : List String := []
  cachedNames : List String := []
  queryInProgress : Bool := false
  queryIteratorId : String := ""
  queryAcc : List String := []
  queryNameAcc : List String := []
  queryRequestMode : String := "item_inventory_query"
deriving DecidableEq

/-- Embeds `SessionState`. -/
structure Session where
  ticket : String := ""
  lastError : String := ""
  in_flight_event_id : Option String := none
  in_flight_txn_type : Option String := none
  in_flight_request_kind : String := ""
  last_request_xml : String := ""
  pending_event : Option Event := none
  pending_event_original_line_count : Nat := 0
  pending_event_dropped_line_count : Nat := 0
  pending_item_create_queue : List CreateSpec := []
  in_flight_item_create : Option CreateSpec := none
deriving DecidableEq

/-- One `apply_qb_result` call to the queue client, with the reported
outcome fields. -/
structure ApplyResult where
  eventId : String
  success : Bool
  qbTxnId : Option String := none
  qbTxnType : Option String := none
  qbErrorCode : Option String := none
  qbErrorMessage : Option String := none
  retryable : Option Bool := none
deriving DecidableEq

/-- Result of one `receive_response_xml` call: the new service state,
the new session, the `apply_qb_result` calls issued (in order), and the
returned progress percentage. -/
structure RrxResult where
  svc : Svc
  session : Session
  applied : List ApplyResult
  ret : Nat
deriving DecidableEq

/-- Embeds `_reset_qb_items_query_state`. -/
def resetQueryState (svc : Svc) : Svc :=
  { svc with
    queryInProgress := false
    queryIteratorId := ""
    queryAcc := []
    queryNameAcc := [] }

/-- Embeds `_reset_in_flight_request_state`. -/
def resetInFlight (s : Session) : Session :=
  { s with
    in_flight_event_id := none
    in_flight_txn_type := none
    in_flight_request_kind := ""
    last_request_xml := ""
    in_flight_item_create := none }

/-- Embeds `_clear_pending_event_state`. -/
def clearPendingEvent (s : Session) : Session :=
  { s with
    pending_event := none
    pending_event_original_line_count := 0
    pending_event_dropped_line_count := 0
    pending_item_create_queue := []
    in_flight_item_create := none }

/-- Embeds `_cache_created_item_name` (timestamps and the debug CSV are
I/O effects outside the claims). -/
def cache_created_item_name (svc : Svc) (itemFullName : String) : Svc :=
  if pyStrip itemFullName = "" then svc
  else
    { svc with
      cachedKeys := add_item_key_variants svc.cachedKeys (pyStrip itemFullName)
      cachedNames := setAdd svc.cachedNames (pyStrip itemFullName) }

/-- Last non-blank text among an element's direct children with the
given local tag name (the write-in-a-loop pattern of
`_parse_item_inventory_query_response`). -/
def lastTexted (tag : String) (children : List XmlElem) : String :=
  children.foldl
    (fun acc c =>
      if localname c.tag == tag && !(pyStrip (c.text.getD "") == "") then
        pyStrip (c.text.getD "")
      else acc)
    ""

/-- One step of the `ItemInventoryRet` collection fold. -/
def collectRet (acc : List String × List String) (el : XmlElem) :
    List String × List String :=
  if localname el.tag == "ItemInventoryRet" then
    if lastTexted "FullName" el.children ≠ "" then
      (add_item_key_variants acc.1 (lastTexted "FullName" el.children),
       setAdd acc.2 (lastTexted "FullName" el.children))
    else if lastTexted "Name" el.children ≠ "" then
      (add_item_key_variants acc.1 (lastTexted "Name" el.children),
       setAdd acc.2 (lastTexted "Name" el.children))
    else acc
  else acc

/-- The key/name collection loop over the response subtree. -/
def collectItems (rs : XmlElem) : List String × List String :=
  rs.iter.foldl collectRet ([], [])

/-- First element (document order) whose local name is a query response
node. -/
def findQueryRs (root : XmlElem) : Option XmlElem :=
  root.iter.find? fun el =>
    localname el.tag == "ItemInventoryQueryRs" || localname el.tag == "ItemQueryRs"

/-- Embeds `_parse_item_inventory_query_response`; every `raise` becomes
`Except.error` carrying the exception text. -/
def parse_item_inventory_query_response (r : RawXml) :
    Except String (List String × List String × String × Nat) :=
  if pyStrip r.text = "" then
    .error "Empty ItemInventoryQueryRs response from QuickBooks."
  else
    match r.parsed with
    | none => .error "Unable to parse ItemInventoryQueryRs XML."
    | some root =>
      match findQueryRs root with
      | none =>
        .error "No ItemInventoryQueryRs/ItemQueryRs node found in QuickBooks response."
      | some rs =>
        if !is_qb_success_response (attribGet rs.attrib "statusCode" "UNKNOWN")
            (attribGet rs.attrib "statusSeverity" "Error") then
          .error ("QuickBooks ItemInventoryQuery failed (statusCode=" ++
            attribGet rs.attrib "statusCode" "UNKNOWN" ++ ", statusSeverity=" ++
            attribGet rs.attrib "statusSeverity" "Error" ++ "): " ++
            orText (pyStrip (attribGet rs.attrib "statusMessage" ""))
              "Unknown status message.")
        else
          .ok ((collectItems rs).1, (collectItems rs).2,
            pyStrip (attribGet rs.attrib "iteratorID" ""),
            (parse_int (attribGet rs.attrib "iteratorRemainingCount" "")).getD 0)

/-- Mode constant `_QB_ITEMS_QUERY_MODE_FALLBACK`. -/
def QB_ITEMS_QUERY_MODE_FALLBACK : String := "item_query_fallback"

/-- Default message for a blank HResult companion message. -/
def hresultMessage (message : String) : String :=
  orText (pyStrip message) "QuickBooks returned HResult failure."

/-- The `item_query` branch of `receive_response_xml` before its
`finally` clause: new service state, new session, returned progress.
(The source updates the page accumulators before the mid-branch
`raise`s; the handler's `_reset_qb_items_query_state` clears them
again, so the net state written here is identical.) -/
def rrxItemQueryBody (svc : Svc) (session : Session) (progress : Nat)
    (responseXml : RawXml) (hresult message : String) : Svc × Session × Nat :=
  if pyStrip hresult ≠ "" then
    if pyLower (pyStrip hresult) = "0x80040400" ∧
        svc.queryRequestMode ≠ QB_ITEMS_QUERY_MODE_FALLBACK then
      (resetQueryState { svc with queryRequestMode := QB_ITEMS_QUERY_MODE_FALLBACK },
       { session with lastError := hresultMessage message ++
          " [Auto-fallback enabled: switching QB item pull to ItemQueryRq compatibility mode.]" },
       0)
    else
      (resetQueryState svc, { session with lastError := hresultMessage message }, progress)
  else
    match parse_item_inventory_query_response responseXml with
    | .error e =>
      (resetQueryState svc,
       { session with lastError := "receiveResponseXML item query error: " ++ e },
       progress)
    | .ok (pageKeys, pageNames, iteratorId, remainingCount) =>
      if 0 < remainingCount then
        if iteratorId = "" then
          (resetQueryState svc,
           { session with lastError := "receiveResponseXML item query error: QuickBooks ItemInventoryQueryRs missing iteratorID while iteratorRemainingCount > 0." },
           progress)
        else
          ({ svc with
             queryAcc := setUnion svc.queryAcc pageKeys
             queryNameAcc := setUnion svc.queryNameAcc pageNames
             queryInProgress := true
             queryIteratorId := iteratorId },
           { session with lastError := "" }, 0)
      else
        if setUnion svc.queryAcc pageKeys = [] then
          (resetQueryState svc,
           { session with lastError := "receiveResponseXML item query error: QuickBooks ItemInventoryQuery returned zero inventory-part items." },
           progress)
        else
          (resetQueryState { svc with
             cachedKeys := setUnion svc.queryAcc pageKeys
             cachedNames := setUnion svc.queryNameAcc pageNames },
           { session with lastError := "" }, progress)

/-- The `item_query` branch with its `finally` in-flight reset. -/
def rrxItemQuery (svc : Svc) (session : Session) (progress : Nat)
    (responseXml : RawXml) (hresult message : String) : RrxResult :=
  ⟨(rrxItemQueryBody svc session progress responseXml hresult message).1,
   resetInFlight (rrxItemQueryBody svc session progress responseXml hresult message).2.1,
   [],
   (rrxItemQueryBody svc session progress responseXml hresult message).2.2⟩

/-- The owning event id used by the `item_create` branch. -/
def itemCreateEventId (session : Session) : String :=
  orText (session.in_flight_event_id.getD "")
    (optionalText (session.pending_event.bind Event.eventId))

/-- The in-flight item name used by the `item_create` branch. -/
def itemCreateItemName (session : Session) : String :=
  match session.in_flight_item_create with
  | some cs => pyStrip cs.itemFullName
  | none => ""

/-- Conditional `apply_qb_result` (only issued for a non-blank event
id). -/
def applyIf (eventId : String) (r : ApplyResult) : List ApplyResult :=
  if eventId ≠ "" then [r] else []

/-- `parsed.status_message or "QuickBooks reported an error."`. -/
def qbReportedMessage (parsed : QbxmlResponseResult) : String :=
  orText parsed.status_message "QuickBooks reported an error."

/-- The `item_create` branch of `receive_response_xml` before its
`finally` clause.  `apply_qb_result` and the cache write are modelled
as always succeeding, so the branch's `except` handler (reachable in
the source only through a failing Convex call) has no counterpart. -/
def rrxItemCreateBody (svc : Svc) (session : Session) (progress : Nat)
    (responseXml : RawXml) (hresult message : String) :
    Svc × Session × List ApplyResult × Nat :=
  if pyStrip hresult ≠ "" then
    (svc,
     { clearPendingEvent session with lastError := hresultMessage message },
     applyIf (itemCreateEventId session)
       { eventId := itemCreateEventId session
         success := false
         qbTxnType := session.in_flight_txn_type
         qbErrorCode := some (pyStrip (orText hresult "HRESULT_ERROR"))
         qbErrorMessage := some (hresultMessage message)
         retryable := some true },
     progress)
  else
    if (parse_qbxml_response responseXml).success = true ∨
        is_duplicate_item_name_conflict (parse_qbxml_response responseXml).status_code = true then
      ((if itemCreateItemName session ≠ "" then
          cache_created_item_name svc (itemCreateItemName session)
        else svc),
       { session with lastError := "" },
       [],
       (if session.pending_item_create_queue ≠ [] ∨ session.pending_event ≠ none then 0
        else progress))
    else
      (svc,
       { clearPendingEvent session with
         lastError := qbReportedMessage (parse_qbxml_response responseXml) },
       applyIf (itemCreateEventId session)
         { eventId := itemCreateEventId session
           success := false
           qbTxnType := session.in_flight_txn_type
           qbErrorCode := some (parse_qbxml_response responseXml).status_code
           qbErrorMessage := some (qbReportedMessage (parse_qbxml_response responseXml))
           retryable := some true },
       progress)

/-- The `item_create` branch with its `finally` in-flight reset. -/
def rrxItemCreate (svc : Svc) (session : Session) (progress : Nat)
    (responseXml : RawXml) (hresult message : String) : RrxResult :=
  ⟨(rrxItemCreateBody svc session progress responseXml hresult message).1,
   resetInFlight (rrxItemCreateBody svc session progress responseXml hresult message).2.1,
   (rrxItemCreateBody svc session progress responseXml hresult message).2.2.1,
   (rrxItemCreateBody svc session progress responseXml hresult message).2.2.2⟩

/-- The `finally` clause of the default (event) branch: reset the
in-flight state, then clear the pending-event state when the pending
event is the one whose response was just processed. -/
def rrxEventFinally (s : Session) (eventId : String) : Session :=
  if optionalText (s.pending_event.bind Event.eventId) ≠ "" ∧
      optionalText (s.pending_event.bind Event.eventId) = eventId then
    clearPendingEvent (resetInFlight s)
  else resetInFlight s

/-- The default (event) branch of `receive_response_xml` before its
`finally` clause, for a non-blank in-flight event id. -/
def rrxEventBody (session : Session) (progress : Nat) (responseXml : RawXml)
    (hresult message : String) (eventId : String) :
    Session × List ApplyResult × Nat :=
  if pyStrip hresult ≠ "" then
    ({ session with lastError := hresultMessage message },
     [{ eventId := eventId
        success := false
        qbTxnType := session.in_flight_txn_type
        qbErrorCode := some (pyStrip (orText hresult "HRESULT_ERROR"))
        qbErrorMessage := some (hresultMessage message)
        retryable := some true }],
     progress)
  else
    if (parse_qbxml_response responseXml).success then
      ({ session with lastError := "" },
       [{ eventId := eventId
          success := true
          qbTxnId := (parse_qbxml_response responseXml).txn_id
          qbTxnType := orTextOpt (parse_qbxml_response responseXml).txn_type
            session.in_flight_txn_type }],
       progress)
    else
      ({ session with
         lastError := qbReportedMessage (parse_qbxml_response responseXml) },
       [{ eventId := eventId
          success := false
          qbTxnType := orTextOpt (parse_qbxml_response responseXml).txn_type
            session.in_flight_txn_type
          qbErrorCode := some (parse_qbxml_response responseXml).status_code
          qbErrorMessage := some (qbReportedMessage (parse_qbxml_response responseXml))
          retryable := some true }],
       progress)

/-- The default (event) branch, including the no-in-flight-event early
return of 100 and the `finally` clause. -/
def rrxEvent (svc : Svc) (session : Session) (progress : Nat)
    (responseXml : RawXml) (hresult message : String) : RrxResult :=
  if session.in_flight_event_id.getD "" = "" then ⟨svc, session, [], 100⟩
  else
    ⟨svc,
     rrxEventFinally
       (rrxEventBody session progress responseXml hresult message
         (session.in_flight_event_id.getD "")).1
       (session.in_flight_event_id.getD ""),
     (rrxEventBody session progress responseXml hresult message
       (session.in_flight_event_id.getD "")).2.1,
     (rrxEventBody session progress responseXml hresult message
       (session.in_flight_event_id.getD "")).2.2⟩

/-- Embeds `QbwcService.receive_response_xml` for one session.
`progress` is the value `_qbwc_progress_percent` would return (a Convex
queue probe). -/
def receive_response_xml (svc : Svc) (session : Session) (progress : Nat)
    (responseXml : RawXml) (hresult message : String) : RrxResult :=
  if session.in_flight_request_kind = "item_query" then
    rrxItemQuery svc session progress responseXml hresult message
  else if session.in_flight_request_kind = "item_create" then
    rrxItemCreate svc session progress responseXml hresult message
  else
    rrxEvent svc session progress responseXml hresult message

/-- Sessions actually produced by the service: a blank request kind
means no in-flight state at all, and an in-flight event request always
carries a non-blank event id. -/
def WfSession (s : Session) : Prop :=
  (s.in_flight_request_kind = "" →
    s.in_flight_event_id = none ∧ s.in_flight_txn_type = none ∧
    s.last_request_xml = "" ∧ s.in_flight_item_create = none) ∧
  (s.in_flight_request_kind = "event" → s.in_flight_event_id.getD "" ≠ "") ∧
  (s.in_flight_request_kind = "" ∨ s.in_flight_request_kind = "item_query" ∨
    s.in_flight_request_kind = "item_create" ∨ s.in_flight_request_kind = "event")

/-- A final page: success status, no iterator remaining, one inventory
item. -/
def C1rx : RawXml :=
  ⟨"<ItemInventoryQueryRs statusCode=\"0\" statusSeverity=\"Info\"><ItemInventoryRet><FullName>Widget</FullName></ItemInventoryRet></ItemInventoryQueryRs>",
   some (.node "ItemInventoryQueryRs" [("statusCode", "0"), ("statusSeverity", "Info")] none
     [.node "ItemInventoryRet" [] none [.node "FullName" [] (some "Widget") []]])⟩

/-- A session whose in-flight request is the item query. -/
def C1sess : Session := { in_flight_request_kind := "item_query" }

/-- A service state holding a previously cached catalog and a partial
accumulator. -/
def C1svcOld : Svc :=
  { cachedKeys := ["old"], cachedNames := ["Old"], queryAcc := ["partial"],
    queryInProgress := true }

/-- A session waiting on an item-create response, with the owning event
pending. -/
def C6sess : Session :=
  { in_flight_request_kind := "item_create", in_flight_event_id := some "e1",
    pending_event := some { eventId := some "e1", eventType := some "adjustment" },
    in_flight_item_create := some
      { eventId := "e1", requestId := "r1", itemFullName := "Widget",
        incomeAccountFullName := "Inc", cogsAccountFullName := "Cogs",
        assetAccountFullName := "Asset", salesDesc := "d", purchaseDesc := "d" } }

/-- A duplicate-item-name (3100) creation response. -/
def C6rxDup : RawXml :=
  ⟨"<ItemInventoryAddRs statusCode=\"3100\" statusSeverity=\"Error\"/>",
   some (.node "ItemInventoryAddRs" [("statusCode", "3100"), ("statusSeverity", "Error")]
     none [])⟩

/-- A genuinely failing creation response. -/
def C6rxFail : RawXml :=
  ⟨"<ItemInventoryAddRs statusCode=\"500\" statusSeverity=\"Error\" statusMessage=\"bad\"/>",
   some (.node "ItemInventoryAddRs"
     [("statusCode", "500"), ("statusSeverity", "Error"), ("statusMessage", "bad")] none [])⟩

/-! Embedding of the `send_request_xml` batch scan (lines 849-917 of
`service.py`): fetching a batch, marking an event in flight, filtering
its lines against the catalog, and dispatching either an item-create
request or the event's transaction request, with the per-event
exception handler.  The Convex fetch/mark calls and the CSV load are
external; their outcomes are oracle inputs. -/

/-- Non-blank text or `None` (`_optional_text(...) or None`). -/
def optToNone (s : String) : Option String :=
  if s = "" then none else some s

/-- Modelled from the spec: `build_item_inventory_add_qbxml` is
imported by the service but absent from the source tree; the spec fixes
only that item creation sends a deterministic `ItemInventoryAddRq`
derived from the creation-spec fields (name, request id, account
mappings, descriptions, price, cost, active flag), so the payload is
modelled as an injective rendering of those arguments. -/
def build_item_inventory_add_qbxml (itemFullName requestId qbxmlVersion
    incomeAccountFullName cogsAccountFullName assetAccountFullName
    salesDesc purchaseDesc : String) (salesPrice purchaseCost : Option String)
    (isActive : Option Bool) : String :=
  joinSep "|" ["ItemInventoryAddRq", itemFullName, requestId, qbxmlVersion,
    incomeAccountFullName, cogsAccountFullName, assetAccountFullName, salesDesc,
    purchaseDesc, pyStr salesPrice, pyStr purchaseCost,
    (match isActive with | some true => "True" | some false => "False" | none => "None")]

/-- The creation request rendered for one queued spec. -/
def itemCreateXml (cs : CreateSpec) (qbxmlVersion : String) : String :=
  build_item_inventory_add_qbxml (pyStrip cs.itemFullName) (pyStrip cs.requestId)
    qbxmlVersion (pyStrip cs.incomeAccountFullName) (pyStrip cs.cogsAccountFullName)
    (pyStrip cs.assetAccountFullName) (pyStrip cs.salesDesc) (pyStrip cs.purchaseDesc)
    cs.salesPrice cs.purchaseCost cs.isActive

/-- Embeds `_send_next_item_create_request`: the new session (the pop
of the queue survives a later failure) with the request, or the raised
error. -/
def send_next_item_create_request (session : Session) (qbxmlVersion : String) :
    Session × Except String String :=
  match session.pending_item_create_queue with
  | [] => (session, .error "No pending item create requests for this session.")
  | cs :: rest =>
    match session.pending_event with
    | none => (session, .error "Pending event is required before creating missing items.")
    | some pev =>
      if optionalText pev.eventId = "" then
        ({ session with pending_item_create_queue := rest },
         .error "Pending event is missing eventId.")
      else
        ({ session with
           pending_item_create_queue := rest
           in_flight_event_id := some (optionalText pev.eventId)
           in_flight_txn_type := optToNone (optionalText pev.qbTxnType)
           in_flight_request_kind := "item_create"
           last_request_xml := itemCreateXml cs qbxmlVersion
           in_flight_item_create := some cs
           lastError := "" },
         .ok (itemCreateXml cs qbxmlVersion))

/-- Embeds `_send_event_request` (the debug-payload persistence is an
I/O effect outside the claims). -/
def send_event_request (cfg : Config) (session : Session) (event : Event)
    (qbxmlVersion freshUuid : String) : Session × Except String String :=
  if optionalText event.eventId = "" then
    (session, .error "Cannot build event request without eventId.")
  else if event.lines = [] then
    (session, .error ("Event " ++ optionalText event.eventId ++ " has no lines to send."))
  else
    match build_qbxml_for_event event qbxmlVersion cfg.defaultAdjustmentAccount freshUuid with
    | .error e => (session, .error e)
    | .ok xml =>
      ({ session with
         in_flight_event_id := some (optionalText event.eventId)
         in_flight_txn_type := event.qbTxnType
         in_flight_request_kind := "event"
         last_request_xml := xml
         in_flight_item_create := none
         lastError := "" },
       .ok xml)

/-- One round of `_line_item_candidates` for one raw value. -/
def candidatesFromRaw (acc : List String) (raw : String) : List String :=
  if pyStrip raw = "" then acc
  else
    if (pyStrip raw).data.contains ':' ∧ pyStrip (rsplitColonTail (pyStrip raw)) ≠ "" then
      setAdd (setAdd acc (normalize_item_key (pyStrip raw)))
        (normalize_item_key (pyStrip (rsplitColonTail (pyStrip raw))))
    else setAdd acc (normalize_item_key (pyStrip raw))

/-- Embeds `_line_item_candidates`. -/
def line_item_candidates (line : Line) : List String :=
  (candidatesFromRaw (candidatesFromRaw [] (line.qbItemFullName.getD ""))
    (line.sku.getD "")).filter (· ≠ "")

/-- Does some candidate key of the line hit the catalog? -/
def lineHit (keys : List String) (l : Line) : Bool :=
  (line_item_candidates l).any (fun c => keys.contains c)

/-- The dedup-by-key creation-spec loop of
`_filter_event_lines_to_qb_items`. -/
def buildMissingSpecs (cfg : Config) (event : Event) :
    List Line → List String → Nat → Except String (List CreateSpec)
  | [], _, _ => .ok []
  | l :: rest, seen, ordinal =>
    if normalize_item_key (line_item_full_name l) = "" ∨
        normalize_item_key (line_item_full_name l) ∈ seen then
      buildMissingSpecs cfg event rest seen ordinal
    else
      match build_missing_item_create_spec cfg event l ordinal with
      | .error e => .error e
      | .ok spec =>
        (buildMissingSpecs cfg event rest
          (seen ++ [normalize_item_key (line_item_full_name l)]) (ordinal + 1)).map
          (spec :: ·)

/-- Embeds `_filter_event_lines_to_qb_items` given the loaded catalog
keys: filtered event, original line count, dropped line count, and the
creation specs for auto-creatable missing items. -/
def filter_event_lines_to_qb_items (cfg : Config) (keys : List String) (event : Event) :
    Except String (Event × Nat × Nat × List CreateSpec) :=
  match
    (if cfg.qbItemsAutoCreate ∧
        (event.lines.filter (fun l =>
          !(line_item_candidates l).isEmpty && !lineHit keys l && cfg.qbItemsAutoCreate)) ≠ [] then
      buildMissingSpecs cfg event
        (event.lines.filter (fun l =>
          !(line_item_candidates l).isEmpty && !lineHit keys l && cfg.qbItemsAutoCreate))
        [] 0
    else .ok []) with
  | .error e => .error e
  | .ok specs =>
    .ok ({ event with lines := event.lines.filter (fun l =>
        !(line_item_candidates l).isEmpty && (lineHit keys l || cfg.qbItemsAutoCreate)) },
      event.lines.length,
      event.lines.length - (event.lines.filter (fun l =>
        !(line_item_candidates l).isEmpty && (lineHit keys l || cfg.qbItemsAutoCreate))).length,
      specs)

/-- Oracle inputs of one batch scan: configuration, negotiated version,
the uuid4 fresh value, the outcome of the catalog CSV load, and the
event ids for which `mark_event_in_flight` raises. -/
structure ScanCtx where
  cfg : Config
  qbxmlVersion : String
  freshUuid : String
  loadKeys : Except String (List String)
  markFailIds : List String
deriving DecidableEq

/-- Outcome of the `try` body for one fetched event. -/
inductive StepOut where
  | continueScan (session : Session) (applied : List ApplyResult)
  | respond (session : Session) (xml : String)
  | failedStep (session : Session) (e : String)
deriving DecidableEq

/-- The `try` body of the batch scan for one event (lines 859-898):
skip blank ids, mark in flight, filter lines, report empty-after-filter
events as immediate successes, dispatch creation or event requests.
`failedStep` carries the session as mutated before the exception. -/
def scanStep (ctx : ScanCtx) (session : Session) (event : Event) : StepOut :=
  if event.eventId.getD "" = "" then .continueScan session []
  else if event.eventId.getD "" ∈ ctx.markFailIds then
    .failedStep session "mark_event_in_flight failed"
  else
    match ctx.loadKeys with
    | .error e => .failedStep session e
    | .ok keys =>
      match filter_event_lines_to_qb_items ctx.cfg keys event with
      | .error e => .failedStep session e
      | .ok (filteredEvent, originalCount, droppedCount, missingCreates) =>
        if filteredEvent.lines = [] then
          .continueScan { session with lastError := "" }
            [⟨event.eventId.getD "", true, none, event.qbTxnType, none, none, none⟩]
        else if missingCreates ≠ [] then
          match send_next_item_create_request
            { session with
              pending_event := some filteredEvent
              pending_event_original_line_count := originalCount
              pending_event_dropped_line_count := droppedCount
              pending_item_create_queue := missingCreates } ctx.qbxmlVersion with
          | (s2, .error e) => .failedStep s2 e
          | (s2, .ok xml) => .respond s2 xml
        else
          match send_event_request ctx.cfg session filteredEvent ctx.qbxmlVersion
            ctx.freshUuid with
          | (s2, .error e) => .failedStep s2 e
          | (s2, .ok xml) => .respond s2 xml

/-- Result of the batch scan: final session, the `apply_qb_result`
calls issued in order, and the returned payload (`""` when no work
remains). -/
structure ScanResult where
  session : Session
  applied : List ApplyResult
  response : String
deriving DecidableEq

/-- The `for event in events` loop with its per-event exception
handler (lines 855-917): a failed step reports BUILD_ERROR
non-retryable against the event, clears the pending-event state, notes
the error, and continues with the next candidate; an exhausted batch
resets the in-flight state and returns the empty payload. -/
def sendScanLoop (ctx : ScanCtx) (session : Session) :
    List Event → List ApplyResult → ScanResult
  | [], acc => ⟨resetInFlight session, acc, ""⟩
  | ev :: rest, acc =>
    match scanStep ctx session ev with
    | .continueScan s2 eff => sendScanLoop ctx s2 rest (acc ++ eff)
    | .respond s2 xml => ⟨s2, acc, xml⟩
    | .failedStep s2 e =>
      sendScanLoop ctx
        { clearPendingEvent s2 with
          lastError := "sendRequestXML build error for event " ++ ev.eventId.getD "" ++
            ": " ++ e }
        rest
        (acc ++ [⟨ev.eventId.getD "", false, none, ev.qbTxnType, some "BUILD_ERROR",
          some ("sendRequestXML build error: " ++ e), some false⟩])

/-- Scan context: auto-create on, catalog loaded with one item, no
marking failures. -/
def C7ctx : ScanCtx := ⟨{ }, "13.0", "u", .ok ["widget"], []⟩

/-- An adjustment event whose build fails (missing effectiveDate). -/
def C7evBad : Event :=
  { eventId := some "e1", eventType := some "adjustment",
    lines := [{ sku := some "Widget", qty := some "1" }] }


/-! ### Theorems -/

/-- C3 (counterexample): the claim says that whenever the requested major
is not strictly lower than the configured major the result pairs the
configured major with the lesser of the two minors; with configured
version `13.5` and request `14.0` that would be `"13.0"`
(`min 5 0 = 0`), but `_resolve_qbxml_version` returns the configured
version `"13.5"` verbatim when the requested major exceeds the
configured one. -/
theorem C3_counterexample :
    resolve_qbxml_version "13.5" "14" "0" = "13.5" ∧
      resolve_qbxml_version "13.5" "14" "0" ≠
        "13." ++ toString (min (parse_qbxml_version "13.5").2 ((parse_int "0").getD 0)) := by
  constructor
  · decide
  · decide

/-- C3 (amended): version negotiation returns the client's `major.minor`
verbatim when the requested major is strictly lower than the configured
major; it returns the configured `major.minor` verbatim both when the
requested major exceeds the configured major and when the requested
major does not parse; and only when the two majors are equal is the
minor capped at the lesser of the configured and requested minors (an
unparsable requested minor counting as 0). -/
theorem C3_resolve_version_amended (cfg maj minr : String) :
    (parse_int maj = none →
      resolve_qbxml_version cfg maj minr =
        toString (parse_qbxml_version cfg).1 ++ "." ++ toString (parse_qbxml_version cfg).2) ∧
    (∀ M, parse_int maj = some M →
      (M < (parse_qbxml_version cfg).1 →
        resolve_qbxml_version cfg maj minr =
          toString M ++ "." ++ toString ((parse_int minr).getD 0)) ∧
      ((parse_qbxml_version cfg).1 < M →
        resolve_qbxml_version cfg maj minr =
          toString (parse_qbxml_version cfg).1 ++ "." ++ toString (parse_qbxml_version cfg).2) ∧
      (M = (parse_qbxml_version cfg).1 →
        resolve_qbxml_version cfg maj minr =
          toString (parse_qbxml_version cfg).1 ++ "." ++
            toString (min (parse_qbxml_version cfg).2 ((parse_int minr).getD 0)))) := by
  constructor
  · intro h
    simp [resolve_qbxml_version, h]
  · intro M hM
    refine ⟨fun hlt => ?_, fun hgt => ?_, fun heq => ?_⟩
    · simp [resolve_qbxml_version, hM, hlt]
    · simp [resolve_qbxml_version, hM, Nat.lt_asymm hgt, hgt]
    · simp [resolve_qbxml_version, hM, heq]

/-- C3 (witness): instantiates the amended negotiation theorem at
configured version `13.5`, requested `13.2`. -/
theorem C3_witness : resolve_qbxml_version "13.5" "13" "2" = "13.2" := by
  have h := (C3_resolve_version_amended "13.5" "13" "2").2 13 (by decide)
  have h2 := h.2.2 (by decide)
  simpa using h2

example :
    (XmlElem.node "a" [] none [.node "b" [] none [], .node "c" [] none []]).iter.map
        XmlElem.tag = ["a", "b", "c"] := by decide

/-- C2: `parse_qbxml_response` is total (it returns a result for every
input, never raising), maps empty/whitespace input, unparsable input and
parsable input without a status-bearing `*Rs` node to the three distinct
failure codes `EMPTY_RESPONSE`, `PARSE_ERROR` and `NO_RS_NODE`, each
with `success = false`, and otherwise reports success exactly when the
found status node's `statusCode` is `"0"` or `"1"` and its
`statusSeverity` is not `"error"` case-insensitively. -/
theorem C2_parse_response_failure_shapes (resp : RawXml) :
    (pyStrip resp.text = "" →
      parse_qbxml_response resp =
        ⟨false, "EMPTY_RESPONSE", "Error", "Empty qbXML response.", none, none⟩) ∧
    (pyStrip resp.text ≠ "" → resp.parsed = none →
      parse_qbxml_response resp =
        ⟨false, "PARSE_ERROR", "Error", "Unable to parse qbXML response.", none, none⟩) ∧
    (∀ root, pyStrip resp.text ≠ "" → resp.parsed = some root → findRsNode root = none →
      parse_qbxml_response resp =
        ⟨false, "NO_RS_NODE", "Error", "No *Rs node found in qbXML response.", none, none⟩) ∧
    (∀ root rs, pyStrip resp.text ≠ "" → resp.parsed = some root → findRsNode root = some rs →
      (parse_qbxml_response resp).success =
        ((attribGet rs.attrib "statusCode" "UNKNOWN" = "0" ∨
            attribGet rs.attrib "statusCode" "UNKNOWN" = "1") ∧
          pyLower (attribGet rs.attrib "statusSeverity" "Error") ≠ "error" : Prop)) ∧
    ("EMPTY_RESPONSE" ≠ "PARSE_ERROR" ∧ "PARSE_ERROR" ≠ "NO_RS_NODE" ∧
      "EMPTY_RESPONSE" ≠ "NO_RS_NODE") := by
  refine ⟨fun h => ?_, fun h hp => ?_, fun root h hp hrs => ?_, fun root rs h hp hrs => ?_,
    by decide⟩
  · simp [parse_qbxml_response, h]
  · simp [parse_qbxml_response, h, hp]
  · simp [parse_qbxml_response, h, hp, hrs]
  · simp only [parse_qbxml_response, h, if_neg h, hp, hrs, is_qb_success_response]
    by_cases h0 : attribGet rs.attrib "statusCode" "UNKNOWN" = "0" <;>
      by_cases h1 : attribGet rs.attrib "statusCode" "UNKNOWN" = "1" <;>
      by_cases hsev : pyLower (attribGet rs.attrib "statusSeverity" "Error") = "error" <;>
      simp [h0, h1, hsev]

/-- C2 (witness): a concrete response with a status node
(`statusCode="0"`, severity `Warn`) parses as success, exercising the
final clause of the parse theorem. -/
theorem C2_witness :
    (parse_qbxml_response
        ⟨"<QBXML><ItemInventoryQueryRs statusCode=\"0\" statusSeverity=\"Warn\"/></QBXML>",
          some (.node "QBXML" [] none
            [.node "ItemInventoryQueryRs"
              [("statusCode", "0"), ("statusSeverity", "Warn")] none []])⟩).success = true := by
  have h :=
    (C2_parse_response_failure_shapes
        ⟨"<QBXML><ItemInventoryQueryRs statusCode=\"0\" statusSeverity=\"Warn\"/></QBXML>",
          some (.node "QBXML" [] none
            [.node "ItemInventoryQueryRs"
              [("statusCode", "0"), ("statusSeverity", "Warn")] none []])⟩).2.2.2.1
      (.node "QBXML" [] none
        [.node "ItemInventoryQueryRs"
          [("statusCode", "0"), ("statusSeverity", "Warn")] none []])
      (.node "ItemInventoryQueryRs" [("statusCode", "0"), ("statusSeverity", "Warn")] none [])
      (by decide) rfl rfl
  rw [h]
  decide

/-- Any successfully built creation spec's request id is the stable
digest of the event id, the case-folded item name and the ordinal. -/
theorem build_missing_item_create_spec_requestId (cfg : Config) (event : Event) (line : Line)
    (ordinal : Nat) (spec : CreateSpec)
    (h : build_missing_item_create_spec cfg event line ordinal = .ok spec) :
    spec.requestId =
      uuid5String NAMESPACE_URL
        (itemCreateRequestSeed (optionalText event.eventId) (line_item_full_name line) ordinal) := by
  simp only [build_missing_item_create_spec] at h
  split_ifs at h <;> (injection h with h2; subst h2; rfl)

/-- C9: the item-creation request id depends only on the event id, the
item's full name and the ordinal — building the creation spec twice, for
any two events and lines agreeing on those three inputs (all other line
fields, configured defaults and retries may differ), yields the same
request id. -/
theorem C9_item_create_request_id_deterministic (cfg1 cfg2 : Config)
    (event1 event2 : Event) (line1 line2 : Line) (ordinal : Nat)
    (spec1 spec2 : CreateSpec)
    (hid : optionalText event1.eventId = optionalText event2.eventId)
    (hname : line_item_full_name line1 = line_item_full_name line2)
    (h1 : build_missing_item_create_spec cfg1 event1 line1 ordinal = .ok spec1)
    (h2 : build_missing_item_create_spec cfg2 event2 line2 ordinal = .ok spec2) :
    spec1.requestId = spec2.requestId := by
  rw [build_missing_item_create_spec_requestId cfg1 event1 line1 ordinal spec1 h1,
    build_missing_item_create_spec_requestId cfg2 event2 line2 ordinal spec2 h2, hid, hname]

/-- C9 (witness): two builds of the same item/event/ordinal with
different descriptions and different configured defaults produce the
identical request id. -/
theorem C9_witness :
    ∃ spec1 spec2 : CreateSpec,
      build_missing_item_create_spec
          { qbItemIncomeAccountDefault := "Income", qbItemCogsAccountDefault := "COGS",
            qbItemAssetAccountDefault := "Assets" }
          { eventId := some "ev-1" } { sku := some "SKU-9" } 0 = .ok spec1 ∧
      build_missing_item_create_spec
          { qbItemIncomeAccountDefault := "Income2", qbItemCogsAccountDefault := "COGS2",
            qbItemAssetAccountDefault := "Assets2" }
          { eventId := some "ev-1", memo := some "other" }
          { sku := some "SKU-9", itemSalesDescription := some "desc" } 0 = .ok spec2 ∧
      spec1.requestId = spec2.requestId := by
  refine ⟨_, _, rfl, rfl,
    C9_item_create_request_id_deterministic
      { qbItemIncomeAccountDefault := "Income", qbItemCogsAccountDefault := "COGS",
        qbItemAssetAccountDefault := "Assets" }
      { qbItemIncomeAccountDefault := "Income2", qbItemCogsAccountDefault := "COGS2",
        qbItemAssetAccountDefault := "Assets2" }
      { eventId := some "ev-1" } { eventId := some "ev-1", memo := some "other" }
      { sku := some "SKU-9" } { sku := some "SKU-9", itemSalesDescription := some "desc" }
      0 _ _ rfl rfl rfl rfl⟩

example : format_number "2.50" = .ok "2.5" := by decide

example : format_number "100" = .ok "100" := by decide

example : format_number "0.000" = .ok "0" := by decide

example : format_number "-0.5" = .ok "-0.5" := by decide

example : format_number "1e3" = .ok "1000" := by decide

example : format_number "0.10" = .ok "0.1" := by decide

example : format_number "NaN" = .ok "NaN" := by decide

example : format_number " 12_5 " = .ok "125" := by decide

example : format_number "None" = .error "Invalid numeric value for qbXML quantity: None" := by decide

example : format_number "12.30.4" =
    .error "Invalid numeric value for qbXML quantity: 12.30.4" := by decide

example : format_number ".5" = .ok "0.5" := by decide

example : format_number "-Infinity" = .ok "-Infinity" := by decide

example : format_number "+7." = .ok "7" := by decide

example : format_number "." = .error "Invalid numeric value for qbXML quantity: ." := by decide

example : format_number "1e" = .error "Invalid numeric value for qbXML quantity: 1e" := by decide

example : format_number "-0" = .ok "-0" := by decide

example : format_number "0E+5" = .ok "0" := by decide

example : format_number "00.100" = .ok "0.1" := by decide

example : format_number "nan123" = .ok "NaN123" := by decide

example :
    format_number "99999999999999999999999999999" = .ok "100000000000000000000000000000" := by
  decide

example : ∃ m, format_number "sNaN" = .error m := ⟨_, rfl⟩

/-! Lemmas about digit lists and decimal values, leading to the C8
theorems about `format_number`. -/

theorem natOfDigits_append (a b : List Nat) :
    natOfDigits (a ++ b) = b.foldl (fun acc d => acc * 10 + d) (natOfDigits a) := by
  simp [natOfDigits, List.foldl_append]

theorem foldl_digits_zeros (k : Nat) (acc : Nat) :
    (List.replicate k 0).foldl (fun acc d => acc * 10 + d) acc = acc * 10 ^ k := by
  induction k generalizing acc with
  | zero => simp
  | succ n ih =>
    simp only [List.replicate_succ, List.foldl_cons, ih]
    ring

theorem natOfDigits_append_zeros (ds : List Nat) (k : Nat) :
    natOfDigits (ds ++ List.replicate k 0) = natOfDigits ds * 10 ^ k := by
  rw [natOfDigits_append, foldl_digits_zeros]

theorem natOfDigits_replicate_zero (k : Nat) : natOfDigits (List.replicate k 0) = 0 := by
  have h := natOfDigits_append_zeros [] k
  simpa [natOfDigits] using h

theorem natOfDigits_zeros_append (k : Nat) (ds : List Nat) :
    natOfDigits (List.replicate k 0 ++ ds) = natOfDigits ds := by
  rw [natOfDigits_append, natOfDigits_replicate_zero]
  rfl

theorem takeWhile_zero_eq_replicate (ds : List Nat) :
    ds.takeWhile (· == 0) = List.replicate (ds.takeWhile (· == 0)).length 0 := by
  apply List.eq_replicate_of_mem
  intro b hb
  have := List.mem_takeWhile_imp hb
  simpa using this

theorem stripLeadingZeros_value (ds : List Nat) :
    natOfDigits (stripLeadingZeros ds) = natOfDigits ds := by
  conv_rhs => rw [show ds = List.takeWhile (· == 0) ds ++ List.dropWhile (· == 0) ds from
    (List.takeWhile_append_dropWhile (· == 0) ds).symm]
  rw [takeWhile_zero_eq_replicate, natOfDigits_zeros_append]
  rfl

theorem stripLeadingZeros_sublist (ds : List Nat) : (stripLeadingZeros ds).Sublist ds := by
  exact List.dropWhile_sublist _

theorem stripTrailing_spec (ds : List Nat) :
    ds = stripTrailingZeros ds ++ List.replicate (trailingZeroCount ds) 0 := by
  unfold stripTrailingZeros trailingZeroCount
  conv_lhs =>
    rw [← List.reverse_reverse ds,
      show ds.reverse = List.takeWhile (· == 0) ds.reverse ++
          List.dropWhile (· == 0) ds.reverse from
        (List.takeWhile_append_dropWhile (· == 0) ds.reverse).symm]
  rw [List.reverse_append]
  congr 1
  rw [takeWhile_zero_eq_replicate, List.reverse_replicate]
  simp

theorem stripTrailing_value (ds : List Nat) :
    natOfDigits ds = natOfDigits (stripTrailingZeros ds) * 10 ^ trailingZeroCount ds := by
  conv_lhs => rw [stripTrailing_spec ds]
  rw [natOfDigits_append_zeros]

theorem head?_dropWhile_not (p : α → Bool) (l : List α) :
    ∀ x, (l.dropWhile p).head? = some x → p x = false := by
  induction l with
  | nil => intro x hx; simp at hx
  | cons a l ih =>
    intro x hx
    by_cases ha : p a
    · rw [List.dropWhile_cons_of_pos ha] at hx
      exact ih x hx
    · rw [List.dropWhile_cons_of_neg ha] at hx
      simp at hx
      subst hx
      simpa using ha

theorem stripTrailingZeros_getLast (ds : List Nat) :
    ∀ x, (stripTrailingZeros ds).getLast? = some x → x ≠ 0 := by
  intro x hx
  unfold stripTrailingZeros at hx
  rw [List.getLast?_reverse] at hx
  have := head?_dropWhile_not (· == 0) ds.reverse x hx
  simpa using this

theorem stripTrailingZeros_mem (ds : List Nat) : ∀ x ∈ stripTrailingZeros ds, x ∈ ds := by
  intro x hx
  have h := stripTrailing_spec ds
  rw [h]
  exact List.mem_append_left _ hx

theorem decValue_eq_valQ (neg : Bool) (ds : List Nat) (e : Int) :
    decValue (.finite neg ds e) = some (valQ neg ds e) := by
  cases e with
  | ofNat n =>
    simp only [decValue, valQ, Int.ofNat_eq_natCast]
    rw [zpow_natCast]
    cases neg <;> simp
  | negSucc n =>
    simp only [decValue, valQ]
    rw [zpow_negSucc]
    cases neg <;> simp [div_eq_mul_inv]

theorem valQ_append_zeros (neg : Bool) (ds : List Nat) (k : Nat) (e : Int) :
    valQ neg (ds ++ List.replicate k 0) e = valQ neg ds (e + k) := by
  unfold valQ
  rw [natOfDigits_append_zeros]
  have hten : (10 : ℚ) ≠ 0 := by norm_num
  rw [zpow_add₀ hten, zpow_natCast]
  push_cast
  ring

theorem valQ_strip_trailing (neg : Bool) (ds : List Nat) (e : Int) :
    valQ neg (stripTrailingZeros ds) (e + trailingZeroCount ds) = valQ neg ds e := by
  conv_rhs => rw [stripTrailing_spec ds]
  rw [valQ_append_zeros]

theorem valQ_stripLeading (neg : Bool) (ds : List Nat) (e : Int) :
    valQ neg (stripLeadingZeros ds) e = valQ neg ds e := by
  unfold valQ
  rw [stripLeadingZeros_value]

theorem valQ_canon (neg : Bool) (ds : List Nat) (e : Int) :
    valQ neg (if ds.isEmpty then [0] else ds) e = valQ neg ds e := by
  cases ds with
  | nil => simp [valQ, natOfDigits]
  | cons a l => rfl

theorem valQ_zero (neg : Bool) (ds : List Nat) (e e' : Int) (h : natOfDigits ds = 0) :
    valQ neg [0] e' = valQ neg ds e := by
  have h0 : natOfDigits [0] = 0 := rfl
  unfold valQ
  rw [h0, h]
  cases neg <;> simp

theorem digitChar_isDigit (d : Nat) (h : d < 10) : isDigitChar (digitChar d) = true := by
  interval_cases d <;> decide

theorem digitOfChar_digitChar (d : Nat) (h : d < 10) : digitOfChar (digitChar d) = d := by
  interval_cases d <;> decide

theorem charsToDigits_digitsChars (ds : List Nat) (h10 : ∀ d ∈ ds, d < 10) :
    charsToDigits (digitsChars ds) = ds := by
  unfold charsToDigits digitsChars
  rw [List.map_map]
  conv_rhs => rw [← List.map_id ds]
  apply List.map_congr_left
  intro d hd
  exact digitOfChar_digitChar d (h10 d hd)

theorem char_ne_of_notin_digit_range (c x : Char) (h1 : 48 ≤ c.toNat) (h2 : c.toNat ≤ 57)
    (hx : x.toNat < 48 ∨ 57 < x.toNat) : c ≠ x := by
  intro hc
  subst hc
  omega

theorem isDigitChar_classes (c : Char) (h : isDigitChar c = true) :
    isPySpace c = false ∧ c ≠ '_' ∧ c ≠ 'e' ∧ c ≠ 'E' ∧ c ≠ '+' ∧ c ≠ '-' ∧ c ≠ '.' := by
  unfold isDigitChar at h
  simp only [Bool.and_eq_true, decide_eq_true_eq] at h
  obtain ⟨h1, h2⟩ := h
  refine ⟨?_, ?_, ?_, ?_, ?_, ?_, ?_⟩
  · unfold isPySpace
    simp only [Bool.or_eq_false_iff, beq_eq_false_iff_ne]
    exact ⟨⟨⟨⟨⟨char_ne_of_notin_digit_range c _ h1 h2 (by decide),
      char_ne_of_notin_digit_range c _ h1 h2 (by decide)⟩,
      char_ne_of_notin_digit_range c _ h1 h2 (by decide)⟩,
      char_ne_of_notin_digit_range c _ h1 h2 (by decide)⟩,
      char_ne_of_notin_digit_range c _ h1 h2 (by decide)⟩,
      char_ne_of_notin_digit_range c _ h1 h2 (by decide)⟩
  · exact char_ne_of_notin_digit_range c _ h1 h2 (by decide)
  · exact char_ne_of_notin_digit_range c _ h1 h2 (by decide)
  · exact char_ne_of_notin_digit_range c _ h1 h2 (by decide)
  · exact char_ne_of_notin_digit_range c _ h1 h2 (by decide)
  · exact char_ne_of_notin_digit_range c _ h1 h2 (by decide)
  · exact char_ne_of_notin_digit_range c _ h1 h2 (by decide)

theorem dropWhile_eq_self_of_not (p : α → Bool) (l : List α) (h : ∀ c ∈ l, p c = false) :
    l.dropWhile p = l := by
  cases l with
  | nil => rfl
  | cons a t => rw [List.dropWhile_cons_of_neg (by simp [h a (by simp)])]

theorem pyStrip_noop (cs : List Char) (h : ∀ c ∈ cs, isPySpace c = false) :
    pyStrip ⟨cs⟩ = ⟨cs⟩ := by
  unfold pyStrip
  rw [show (String.mk cs).data = cs from rfl]
  rw [dropWhile_eq_self_of_not _ _ h,
    dropWhile_eq_self_of_not _ _ (fun c hc => h c (by simpa using hc)), List.reverse_reverse]

theorem filter_underscore_noop (cs : List Char) (h : ∀ c ∈ cs, c ≠ '_') :
    cs.filter (fun c => !(c == '_')) = cs := by
  rw [List.filter_eq_self]
  intro a ha
  simpa using h a ha

theorem splitAtExpChar_no_e (cs : List Char) (h : ∀ c ∈ cs, c ≠ 'e' ∧ c ≠ 'E') :
    splitAtExpChar cs = (cs, none) := by
  induction cs with
  | nil => rfl
  | cons a t ih =>
    unfold splitAtExpChar
    have ha := h a (by simp)
    rw [if_neg (by simp [ha.1, ha.2])]
    rw [ih (fun c hc => h c (by simp [hc]))]

theorem parseSign_not_sign (cs : List Char) (h : ∀ c ∈ cs.head?.toList, c ≠ '+' ∧ c ≠ '-') :
    parseSign cs = (false, cs) := by
  match cs with
  | [] => rfl
  | c :: t =>
    have hc := h c (by simp)
    simp [parseSign, hc.1, hc.2]

theorem toLower_of_digitChar (c : Char) (h : isDigitChar c = true) : c.toLower = c := by
  unfold isDigitChar at h
  simp only [Bool.and_eq_true, decide_eq_true_eq] at h
  unfold Char.toLower
  rw [if_neg]
  omega

theorem digitsChars_replicate_zero (n : Nat) :
    List.replicate n '0' = digitsChars (List.replicate n 0) := by
  unfold digitsChars
  rw [List.map_replicate]
  rfl

theorem digitsChars_all_digit (ds : List Nat) (h10 : ∀ d ∈ ds, d < 10) :
    ∀ c ∈ digitsChars ds, isDigitChar c = true := by
  intro c hc
  unfold digitsChars at hc
  obtain ⟨d, hd, rfl⟩ := List.mem_map.mp hc
  exact digitChar_isDigit d (h10 d hd)

theorem takeWhile_digits_append (ds : List Nat) (h10 : ∀ d ∈ ds, d < 10) (rest : List Char)
    (hrest : ∀ x, rest.head? = some x → isDigitChar x = false) :
    (digitsChars ds ++ rest).takeWhile isDigitChar = digitsChars ds ∧
      (digitsChars ds ++ rest).dropWhile isDigitChar = rest := by
  induction ds with
  | nil =>
    simp only [digitsChars, List.map_nil, List.nil_append]
    cases rest with
    | nil => exact ⟨rfl, rfl⟩
    | cons x t =>
      have hx := hrest x rfl
      rw [List.takeWhile_cons_of_neg (by simp [hx]), List.dropWhile_cons_of_neg (by simp [hx])]
      exact ⟨rfl, rfl⟩
  | cons d t ih =>
    have hd : isDigitChar (digitChar d) = true := digitChar_isDigit d (h10 d (by simp))
    have iht := ih (fun x hx => h10 x (by simp [hx]))
    simp only [digitsChars, List.map_cons, List.cons_append]
    rw [List.takeWhile_cons_of_pos (by simp [hd]), List.dropWhile_cons_of_pos (by simp [hd])]
    have h1 := iht.1
    have h2 := iht.2
    simp only [digitsChars] at h1 h2
    exact ⟨by rw [h1], by rw [h2]⟩

theorem parseMantissa_digits (ds : List Nat) (h10 : ∀ d ∈ ds, d < 10) (hne : ds ≠ []) :
    parseMantissa (digitsChars ds) = some (ds, 0) := by
  have h := takeWhile_digits_append ds h10 [] (by intro x hx; simp at hx)
  rw [List.append_nil] at h
  unfold parseMantissa
  rw [h.1, h.2]
  rw [show parseMantissaAux (digitsChars ds) [] =
      (if (digitsChars ds).isEmpty then none
        else some (charsToDigits (digitsChars ds), 0)) from rfl]
  rw [if_neg (by simp [digitsChars, hne])]
  rw [charsToDigits_digitsChars ds h10]

theorem parseMantissa_dot (a b : List Nat) (h10a : ∀ d ∈ a, d < 10) (h10b : ∀ d ∈ b, d < 10)
    (ha : a ≠ []) :
    parseMantissa (digitsChars a ++ '.' :: digitsChars b) = some (a ++ b, b.length) := by
  have h := takeWhile_digits_append a h10a ('.' :: digitsChars b)
    (by intro x hx; simp at hx; subst hx; decide)
  unfold parseMantissa
  rw [h.1, h.2]
  rw [show parseMantissaAux (digitsChars a) ('.' :: digitsChars b) =
      (if ('.' : Char) = '.' then
        (if (digitsChars b).all isDigitChar && (!(digitsChars a).isEmpty ||
            !(digitsChars b).isEmpty) then
          some (charsToDigits (digitsChars a ++ digitsChars b), (digitsChars b).length)
        else none)
      else none) from rfl]
  rw [if_pos rfl]
  rw [if_pos]
  · have hab : digitsChars a ++ digitsChars b = digitsChars (a ++ b) := by simp [digitsChars]
    rw [hab, charsToDigits_digitsChars (a ++ b)
      (by intro d hd; rcases List.mem_append.mp hd with hm | hm
          exacts [h10a d hm, h10b d hm])]
    simp [digitsChars]
  · have hb : (digitsChars b).all isDigitChar = true := by
      rw [List.all_eq_true]
      exact digitsChars_all_digit b h10b
    have ha' : (digitsChars a).isEmpty = false := by simp [digitsChars, ha]
    rw [hb, ha']
    rfl

theorem parsePyDecimal_numeric (neg : Bool) (c0 : Char) (mt : List Char)
    (hclass : ∀ c ∈ c0 :: mt, isDigitChar c = true ∨ c = '.')
    (hc0 : isDigitChar c0 = true) :
    parsePyDecimal ⟨(if neg then ['-'] else []) ++ c0 :: mt⟩ =
      parseNumericBody neg (c0 :: mt) := by
  have hnospace : ∀ c ∈ (if neg then ['-'] else []) ++ c0 :: mt, isPySpace c = false := by
    intro c hc
    rcases List.mem_append.mp hc with hs | hm
    · cases neg <;> simp at hs
      subst hs
      decide
    · rcases hclass c hm with hd | hdot
      · exact (isDigitChar_classes c hd).1
      · subst hdot
        decide
  have hnound : ∀ c ∈ (if neg then ['-'] else []) ++ c0 :: mt, c ≠ '_' := by
    intro c hc
    rcases List.mem_append.mp hc with hs | hm
    · cases neg <;> simp at hs
      subst hs
      decide
    · rcases hclass c hm with hd | hdot
      · exact (isDigitChar_classes c hd).2.1
      · subst hdot
        decide
  have hn := hc0
  unfold isDigitChar at hn
  simp only [Bool.and_eq_true, decide_eq_true_eq] at hn
  have hi : c0 ≠ 'i' := char_ne_of_notin_digit_range c0 _ hn.1 hn.2 (by decide)
  have hs : c0 ≠ 's' := char_ne_of_notin_digit_range c0 _ hn.1 hn.2 (by decide)
  have hnn : c0 ≠ 'n' := char_ne_of_notin_digit_range c0 _ hn.1 hn.2 (by decide)
  have hplus : c0 ≠ '+' := (isDigitChar_classes c0 hc0).2.2.2.2.1
  have hminus : c0 ≠ '-' := (isDigitChar_classes c0 hc0).2.2.2.2.2.1
  have hsign : parseSign ((if neg then ['-'] else []) ++ c0 :: mt) = (neg, c0 :: mt) := by
    cases neg
    · rw [if_neg (by exact Bool.false_ne_true), List.nil_append]
      exact parseSign_not_sign _ (by intro c hc; simp at hc; subst hc; exact ⟨hplus, hminus⟩)
    · simp [parseSign]
  have hdata : (String.mk ((if neg then ['-'] else []) ++ c0 :: mt)).data =
      (if neg then ['-'] else []) ++ c0 :: mt := rfl
  unfold parsePyDecimal
  rw [pyStrip_noop _ hnospace, hdata, filter_underscore_noop _ hnound, hsign]
  have hlow : (c0 :: mt).map Char.toLower = c0 :: mt.map Char.toLower := by
    rw [List.map_cons, toLower_of_digitChar c0 hc0]
  unfold parseAfterSign
  rw [hlow]
  have hinf1 : c0 :: List.map Char.toLower mt ≠ "inf".data := by
    intro hEq
    apply hi
    have := congrArg List.head? hEq
    simpa using this
  have hinf2 : c0 :: List.map Char.toLower mt ≠ "infinity".data := by
    intro hEq
    apply hi
    have := congrArg List.head? hEq
    simpa using this
  have hsnan : ("snan".data).isPrefixOf (c0 :: List.map Char.toLower mt) = false := by
    rw [show ("snan".data : List Char) = 's' :: ['n', 'a', 'n'] from rfl]
    rw [show ('s' :: ['n', 'a', 'n']).isPrefixOf (c0 :: List.map Char.toLower mt) =
        (('s' == c0) && (['n', 'a', 'n'] : List Char).isPrefixOf (List.map Char.toLower mt))
      from rfl]
    simp [Ne.symm hs]
  have hnan : ("nan".data).isPrefixOf (c0 :: List.map Char.toLower mt) = false := by
    rw [show ("nan".data : List Char) = 'n' :: ['a', 'n'] from rfl]
    rw [show ('n' :: ['a', 'n']).isPrefixOf (c0 :: List.map Char.toLower mt) =
        (('n' == c0) && (['a', 'n'] : List Char).isPrefixOf (List.map Char.toLower mt))
      from rfl]
    simp [Ne.symm hnn]
  rw [if_neg (by simp [hinf1, hinf2]), if_neg (by simp [hsnan]), if_neg (by simp [hnan])]

theorem parseNumericBody_no_e (neg : Bool) (m : List Char) (h : ∀ c ∈ m, c ≠ 'e' ∧ c ≠ 'E')
    (raw : List Nat) (fl : Nat) (hm : parseMantissa m = some (raw, fl)) :
    parseNumericBody neg m =
      some (.finite neg
        (if (stripLeadingZeros raw).isEmpty then [0] else stripLeadingZeros raw)
        (0 - fl)) := by
  unfold parseNumericBody
  rw [splitAtExpChar_no_e m h, hm]
  rfl

theorem valQ_congr_natOfDigits (neg : Bool) (x y : List Nat) (e : Int)
    (h : natOfDigits x = natOfDigits y) : valQ neg x e = valQ neg y e := by
  unfold valQ
  rw [h]

theorem valQ_canon_strip (neg : Bool) (raw : List Nat) (e : Int) :
    valQ neg
        (if (stripLeadingZeros raw).isEmpty then [0] else stripLeadingZeros raw) e =
      valQ neg raw e := by
  rw [valQ_canon, valQ_stripLeading]

theorem parse_formatF (neg : Bool) (ds : List Nat) (e : Int)
    (h10 : ∀ d ∈ ds, d < 10) (hne : ds ≠ []) :
    ∃ d', parsePyDecimal ⟨formatFChars neg ds e⟩ = some d' ∧
      decValue d' = some (valQ neg ds e) := by
  obtain ⟨d0, dt, rfl⟩ : ∃ d0 dt, ds = d0 :: dt := by
    cases ds with
    | nil => exact absurd rfl hne
    | cons a t => exact ⟨a, t, rfl⟩
  have hd0 : d0 < 10 := h10 d0 (by simp)
  cases e with
  | ofNat n =>
    have hA10 : ∀ d ∈ (d0 :: dt) ++ List.replicate n 0, d < 10 := by
      intro d hd
      rcases List.mem_append.mp hd with hm | hm
      · exact h10 d hm
      · rw [List.eq_of_mem_replicate hm]; omega
    have hcons : digitChar d0 :: digitsChars (dt ++ List.replicate n 0) =
        digitsChars ((d0 :: dt) ++ List.replicate n 0) := by
      simp [digitsChars]
    have hform : formatFChars neg (d0 :: dt) (.ofNat n) =
        (if neg then ['-'] else []) ++ digitChar d0 :: digitsChars (dt ++ List.replicate n 0) := by
      show (if neg then ['-'] else []) ++ digitsChars (d0 :: dt) ++ List.replicate n '0' = _
      rw [digitsChars_replicate_zero]
      simp [digitsChars]
    rw [hform, parsePyDecimal_numeric neg (digitChar d0) _
      (by rw [hcons]; intro c hc; exact Or.inl (digitsChars_all_digit _ hA10 c hc))
      (digitChar_isDigit d0 hd0)]
    rw [show (digitChar d0 :: digitsChars (dt ++ List.replicate n 0) : List Char) =
        digitsChars ((d0 :: dt) ++ List.replicate n 0) from hcons]
    rw [parseNumericBody_no_e neg _
      (by intro c hc
          have hd := digitsChars_all_digit _ hA10 c hc
          exact ⟨(isDigitChar_classes c hd).2.2.1, (isDigitChar_classes c hd).2.2.2.1⟩)
      _ _ (parseMantissa_digits _ hA10 (by simp))]
    refine ⟨_, rfl, ?_⟩
    rw [decValue_eq_valQ]
    congr 1
    rw [valQ_canon_strip, show ((0 : Int) - ((0 : Nat) : Int)) = (0 : Int) by simp,
      valQ_append_zeros]
    congr 1
    rw [Int.ofNat_eq_natCast]
    omega
  | negSucc km =>
    by_cases hlen : km + 1 < (d0 :: dt).length
    · -- more digits than the fractional length: digits split around the point
      have hform : formatFChars neg (d0 :: dt) (.negSucc km) =
          (if neg then ['-'] else []) ++
            digitsChars ((d0 :: dt).take ((d0 :: dt).length - (km + 1))) ++
              '.' :: digitsChars ((d0 :: dt).drop ((d0 :: dt).length - (km + 1))) := by
        show (if km + 1 < (d0 :: dt).length then _ else _) = _
        rw [if_pos hlen]
      have htake10 : ∀ d ∈ (d0 :: dt).take ((d0 :: dt).length - (km + 1)), d < 10 :=
        fun d hd => h10 d (List.mem_of_mem_take hd)
      have hdrop10 : ∀ d ∈ (d0 :: dt).drop ((d0 :: dt).length - (km + 1)), d < 10 :=
        fun d hd => h10 d (List.mem_of_mem_drop hd)
      have htklen : ((d0 :: dt).take ((d0 :: dt).length - (km + 1))).length =
          (d0 :: dt).length - (km + 1) := by
        rw [List.length_take]
        exact Nat.min_eq_left (Nat.sub_le _ _)
      have htkne : (d0 :: dt).take ((d0 :: dt).length - (km + 1)) ≠ [] := by
        intro hEq
        rw [hEq] at htklen
        simp only [List.length_nil, List.length_cons] at htklen hlen
        omega
      obtain ⟨a0, at', hat⟩ : ∃ a0 at', (d0 :: dt).take ((d0 :: dt).length - (km + 1)) =
          a0 :: at' := by
        cases h : (d0 :: dt).take ((d0 :: dt).length - (km + 1)) with
        | nil => exact absurd h htkne
        | cons x xs => exact ⟨x, xs, rfl⟩
      have ha0 : a0 < 10 := htake10 a0 (by rw [hat]; simp)
      have hm := parseMantissa_dot _ _ htake10 hdrop10 htkne
      rw [List.take_append_drop] at hm
      have hdlen : ((d0 :: dt).drop ((d0 :: dt).length - (km + 1))).length = km + 1 := by
        rw [List.length_drop]
        omega
      rw [hform, hat]
      rw [show (digitsChars (a0 :: at') : List Char) = digitChar a0 :: digitsChars at' from rfl]
      rw [show ((if neg then ['-'] else []) ++
            (digitChar a0 :: digitsChars at') ++
              '.' :: digitsChars ((d0 :: dt).drop ((d0 :: dt).length - (km + 1)))) =
          ((if neg then ['-'] else []) ++
            digitChar a0 :: (digitsChars at' ++
              '.' :: digitsChars ((d0 :: dt).drop ((d0 :: dt).length - (km + 1)))))
        by simp]
      have hclass : ∀ c ∈ digitChar a0 :: (digitsChars at' ++
          '.' :: digitsChars ((d0 :: dt).drop ((d0 :: dt).length - (km + 1)))),
          isDigitChar c = true ∨ c = '.' := by
        intro c hc
        simp only [List.mem_cons, List.mem_append] at hc
        rcases hc with rfl | hc
        · exact Or.inl (digitChar_isDigit a0 ha0)
        rcases hc with hc | hc
        · exact Or.inl (digitsChars_all_digit _ (fun d hd => htake10 d (by rw [hat]; simp [hd]))
            c hc)
        rcases hc with rfl | hc
        · exact Or.inr rfl
        · exact Or.inl (digitsChars_all_digit _ hdrop10 c hc)
      rw [parsePyDecimal_numeric neg (digitChar a0) _ hclass (digitChar_isDigit a0 ha0)]
      rw [show (digitChar a0 :: (digitsChars at' ++
            '.' :: digitsChars ((d0 :: dt).drop ((d0 :: dt).length - (km + 1)))) : List Char) =
          (digitsChars (a0 :: at') ++
            '.' :: digitsChars ((d0 :: dt).drop ((d0 :: dt).length - (km + 1))))
        by simp [digitsChars]]
      rw [← hat]
      rw [parseNumericBody_no_e neg _
        (by intro c hc
            have hcm : c ∈ digitChar a0 :: (digitsChars at' ++
                '.' :: digitsChars ((d0 :: dt).drop ((d0 :: dt).length - (km + 1)))) := by
              rw [hat] at hc
              simpa [digitsChars] using hc
            rcases hclass c hcm with hd | rfl
            · exact ⟨(isDigitChar_classes c hd).2.2.1, (isDigitChar_classes c hd).2.2.2.1⟩
            · exact ⟨by decide, by decide⟩)
        _ _ hm]
      refine ⟨_, rfl, ?_⟩
      rw [decValue_eq_valQ]
      have hexp : ((0 : Int) - ((km + 1 : Nat) : Int)) = Int.negSucc km := by
        rw [Int.negSucc_eq]
        push_cast
        ring
      rw [valQ_canon_strip, hdlen, hexp]
    · -- all digits are fractional: a leading "0." is rendered
      have hform : formatFChars neg (d0 :: dt) (.negSucc km) =
          (if neg then ['-'] else []) ++
            digitChar 0 :: (digitsChars [] ++ '.' ::
              digitsChars (List.replicate (km + 1 - (d0 :: dt).length) 0 ++ (d0 :: dt))) := by
        show (if km + 1 < (d0 :: dt).length then _ else _) = _
        rw [if_neg hlen, digitsChars_replicate_zero]
        simp [digitsChars]
        rfl
      have hb10 : ∀ d ∈ List.replicate (km + 1 - (d0 :: dt).length) 0 ++ (d0 :: dt), d < 10 := by
        intro d hd
        rcases List.mem_append.mp hd with hm | hm
        · rw [List.eq_of_mem_replicate hm]; omega
        · exact h10 d hm
      have hm := parseMantissa_dot [0] _ (by intro d hd; simp at hd; omega) hb10 (by simp)
      have hclass : ∀ c ∈ digitChar 0 :: (digitsChars [] ++ '.' ::
          digitsChars (List.replicate (km + 1 - (d0 :: dt).length) 0 ++ (d0 :: dt))),
          isDigitChar c = true ∨ c = '.' := by
        intro c hc
        simp only [digitsChars, List.map_nil, List.nil_append, List.mem_cons] at hc
        rcases hc with rfl | hc
        · exact Or.inl (by decide)
        rcases hc with rfl | hc
        · exact Or.inr rfl
        · obtain ⟨d, hd, rfl⟩ := List.mem_map.mp hc
          exact Or.inl (digitChar_isDigit d (hb10 d hd))
      rw [hform, parsePyDecimal_numeric neg (digitChar 0) _ hclass (by decide)]
      rw [show (digitChar 0 :: (digitsChars [] ++ '.' ::
            digitsChars (List.replicate (km + 1 - (d0 :: dt).length) 0 ++ (d0 :: dt))) : List Char) =
          (digitsChars [0] ++ '.' ::
            digitsChars (List.replicate (km + 1 - (d0 :: dt).length) 0 ++ (d0 :: dt)))
        by simp [digitsChars]]
      rw [parseNumericBody_no_e neg _
        (by intro c hc
            rcases hclass c (by simpa [digitsChars] using hc) with hd | rfl
            · exact ⟨(isDigitChar_classes c hd).2.2.1, (isDigitChar_classes c hd).2.2.2.1⟩
            · exact ⟨by decide, by decide⟩)
        _ _ hm]
      refine ⟨_, rfl, ?_⟩
      rw [decValue_eq_valQ]
      have hval : natOfDigits
          ([0] ++ (List.replicate (km + 1 - (d0 :: dt).length) 0 ++ (d0 :: dt))) =
          natOfDigits (d0 :: dt) := by
        have hrep : ([0] ++ (List.replicate (km + 1 - (d0 :: dt).length) 0 ++ (d0 :: dt)) :
            List Nat) = List.replicate (km + 1 - (d0 :: dt).length + 1) 0 ++ (d0 :: dt) := by
          simp [List.replicate_succ]
        rw [hrep, natOfDigits_zeros_append]
      have hlen' : (List.replicate (km + 1 - (d0 :: dt).length) 0 ++ (d0 :: dt)).length =
          km + 1 := by
        simp only [List.length_append, List.length_replicate, List.length_cons]
        simp only [not_lt, List.length_cons] at hlen
        omega
      have hexp : ((0 : Int) - ((km + 1 : Nat) : Int)) = Int.negSucc km := by
        rw [Int.negSucc_eq]
        push_cast
        ring
      rw [valQ_canon_strip, valQ_congr_natOfDigits neg _ (d0 :: dt) _ hval, hlen', hexp]

theorem decNormalize_small (neg : Bool) (ds : List Nat) (e : Int)
    (hlen : ds.length ≤ 28) (h10 : ∀ d ∈ ds, d < 10) :
    ∃ ds' e', decNormalize (.finite neg ds e) = .ok (.finite neg ds' e') ∧
      valQ neg ds' e' = valQ neg ds e ∧ (∀ d ∈ ds', d < 10) ∧ ds' ≠ [] ∧
      ((ds' = [0] ∧ e' = 0) ∨ (∀ x, ds'.getLast? = some x → x ≠ 0)) := by
  simp only [decNormalize]
  rw [if_neg (show ¬28 < ds.length from by omega)]
  by_cases hz : natOfDigits ds = 0
  · refine ⟨[0], 0, by rw [decNormalizeFinite, if_pos hz], valQ_zero neg ds e 0 hz, ?_, by simp,
      Or.inl ⟨rfl, rfl⟩⟩
    intro d hd
    simp at hd
    omega
  · refine ⟨stripTrailingZeros ds, e + trailingZeroCount ds,
      by rw [decNormalizeFinite, if_neg hz],
      valQ_strip_trailing neg ds e, ?_, ?_, Or.inr (stripTrailingZeros_getLast ds)⟩
    · exact fun d hd => h10 d (stripTrailingZeros_mem ds d hd)
    · intro hEq
      apply hz
      have h := stripTrailing_spec ds
      rw [hEq, List.nil_append] at h
      rw [h, natOfDigits_replicate_zero]

theorem getLast?_mem (l : List α) (x : α) (h : l.getLast? = some x) : x ∈ l := by
  obtain ⟨ys, rfl⟩ := List.getLast?_eq_some_iff.mp h
  simp

theorem formatF_ofNat_no_dot (neg : Bool) (ds : List Nat) (n : Nat)
    (h10 : ∀ d ∈ ds, d < 10) : '.' ∉ formatFChars neg ds (.ofNat n) := by
  intro hmem
  unfold formatFChars at hmem
  simp only [List.mem_append] at hmem
  rcases hmem with (hs | hd) | hr
  · cases neg <;> simp at hs
  · have := digitsChars_all_digit ds h10 '.' hd
    simp [isDigitChar] at this
  · have := List.eq_of_mem_replicate hr
    simp at this

theorem getLast?_append_right (a b : List α) (hb : b ≠ []) :
    (a ++ b).getLast? = b.getLast? := by
  rw [List.getLast?_append_of_ne_nil _ hb]

theorem digitsChars_getLast (ds : List Nat) (x : Nat) (h : ds.getLast? = some x) :
    (digitsChars ds).getLast? = some (digitChar x) := by
  unfold digitsChars
  rw [List.getLast?_map, h]
  rfl

theorem formatF_negSucc_getLast (neg : Bool) (ds : List Nat) (m : Nat) (x : Nat)
    (hx : ds.getLast? = some x) (hne : ds ≠ []) :
    (formatFChars neg ds (.negSucc m)).getLast? = some (digitChar x) := by
  have hdcne : digitsChars ds ≠ [] := by
    intro hEq
    apply hne
    have := congrArg List.length hEq
    simp only [digitsChars, List.length_map, List.length_nil] at this
    exact List.length_eq_zero.mp this
  simp only [formatFChars]
  by_cases hlen : m + 1 < ds.length
  · rw [if_pos hlen]
    have hdropne : ds.drop (ds.length - (m + 1)) ≠ [] := by
      intro hEq
      have := congrArg List.length hEq
      rw [List.length_drop] at this
      simp at this
      omega
    have hdroplast : (ds.drop (ds.length - (m + 1))).getLast? = some x := by
      conv_lhs =>
        rw [← List.getLast?_append_of_ne_nil (ds.take (ds.length - (m + 1))) hdropne]
      rw [List.take_append_drop, hx]
    have hdccne : digitsChars (ds.drop (ds.length - (m + 1))) ≠ [] := by
      intro hEq
      apply hdropne
      have := congrArg List.length hEq
      simp only [digitsChars, List.length_map, List.length_nil] at this
      exact List.length_eq_zero.mp this
    rw [getLast?_append_right _ _ (by simp)]
    rw [show ('.' :: digitsChars (ds.drop (ds.length - (m + 1))) : List Char) =
        ['.'] ++ digitsChars (ds.drop (ds.length - (m + 1))) from rfl]
    rw [getLast?_append_right _ _ hdccne]
    exact digitsChars_getLast _ _ hdroplast
  · rw [if_neg hlen]
    rw [getLast?_append_right _ _ (by simp)]
    rw [show ('0' :: '.' :: (List.replicate (m + 1 - ds.length) '0' ++ digitsChars ds) :
        List Char) = ['0', '.'] ++ (List.replicate (m + 1 - ds.length) '0' ++ digitsChars ds)
      from rfl]
    rw [getLast?_append_right _ _ (by simp [hdcne]), getLast?_append_right _ _ hdcne]
    exact digitsChars_getLast _ _ hx

theorem rstripChar_noop (c : Char) (s : String)
    (h : ∀ x, s.data.getLast? = some x → x ≠ c) : rstripChar c s = s := by
  unfold rstripChar
  have : s.data.reverse.dropWhile (· == c) = s.data.reverse := by
    cases hrev : s.data.reverse with
    | nil => rfl
    | cons a t =>
      have ha : a ≠ c := by
        apply h
        rw [← List.head?_reverse, hrev]
        rfl
      rw [List.dropWhile_cons_of_neg (by simp [ha])]
  rw [this, List.reverse_reverse]

theorem contains_eq_false_of_not_mem (l : List Char) (a : Char) (h : a ∉ l) :
    l.contains a = false := by
  simp only [List.contains, List.elem_eq_mem]
  simpa using h

theorem mk_ne_empty (cs : List Char) (h : cs ≠ []) : (⟨cs⟩ : String) ≠ "" := by
  intro hEq
  exact h (congrArg String.data hEq)

theorem formatFChars_ne_nil (neg : Bool) (ds : List Nat) (e : Int) (hne : ds ≠ []) :
    formatFChars neg ds e ≠ [] := by
  cases e with
  | ofNat n =>
    simp only [formatFChars]
    intro hEq
    have := congrArg List.length hEq
    simp only [List.length_append, List.length_replicate, List.length_nil, digitsChars,
      List.length_map] at this
    have : ds.length = 0 := by omega
    exact hne (List.length_eq_zero.mp this)
  | negSucc m =>
    simp only [formatFChars]
    by_cases hlen : m + 1 < ds.length
    · rw [if_pos hlen]
      intro hEq
      have := congrArg List.length hEq
      simp at this
    · rw [if_neg hlen]
      intro hEq
      have := congrArg List.length hEq
      simp at this

theorem digitChar_ne_zero_dot (x : Nat) (hx10 : x < 10) (hx : x ≠ 0) :
    digitChar x ≠ '0' ∧ digitChar x ≠ '.' := by
  interval_cases x <;> simp_all <;> decide

theorem format_number_finite (s : String) (neg : Bool) (ds : List Nat) (e : Int)
    (hp : parsePyDecimal s = some (.finite neg ds e)) (hlen : ds.length ≤ 28)
    (h10 : ∀ d ∈ ds, d < 10) :
    ∃ ds' e', format_number s = .ok ⟨formatFChars neg ds' e'⟩ ∧
      valQ neg ds' e' = valQ neg ds e ∧ (∀ d ∈ ds', d < 10) ∧ ds' ≠ [] ∧
      ((ds' = [0] ∧ e' = 0) ∨ ∀ x, ds'.getLast? = some x → x ≠ 0) := by
  obtain ⟨ds', e', hnorm, hval, h10', hne', hlast⟩ := decNormalize_small neg ds e hlen h10
  refine ⟨ds', e', ?_, hval, h10', hne', hlast⟩
  unfold format_number
  rw [hp]
  simp only [Option.elim]
  rw [hnorm]
  simp only [Except.map]
  congr 1
  unfold format_number_render orText0
  rw [show pyFormatF (.finite neg ds' e') = ⟨formatFChars neg ds' e'⟩ from rfl]
  cases e' with
  | ofNat n =>
    have hcond : (formatFChars neg ds' (Int.ofNat n)).contains '.' = false :=
      contains_eq_false_of_not_mem _ _ (formatF_ofNat_no_dot neg ds' n h10')
    rw [show (String.mk (formatFChars neg ds' (Int.ofNat n))).data =
        formatFChars neg ds' (Int.ofNat n) from rfl, hcond,
      if_neg Bool.false_ne_true]
    exact if_neg (mk_ne_empty _ (formatFChars_ne_nil neg ds' _ hne'))
  | negSucc m =>
    have hlast' : ∀ x, ds'.getLast? = some x → x ≠ 0 := by
      rcases hlast with ⟨-, hEq⟩ | h
      · exact absurd hEq (by simp)
      · exact h
    obtain ⟨x, hx⟩ : ∃ x, ds'.getLast? = some x := by
      cases hgl : ds'.getLast? with
      | none => exact absurd (List.getLast?_eq_none_iff.mp hgl) hne'
      | some y => exact ⟨y, rfl⟩
    have hx10 : x < 10 := h10' x (getLast?_mem _ _ hx)
    have hxne : x ≠ 0 := hlast' x hx
    have hchars : (formatFChars neg ds' (.negSucc m)).getLast? = some (digitChar x) :=
      formatF_negSucc_getLast neg ds' m x hx hne'
    have hd := digitChar_ne_zero_dot x hx10 hxne
    have hstrip0 : rstripChar '0' ⟨formatFChars neg ds' (.negSucc m)⟩ =
        ⟨formatFChars neg ds' (.negSucc m)⟩ := by
      apply rstripChar_noop
      intro y hy
      rw [show (String.mk (formatFChars neg ds' (.negSucc m))).data =
          formatFChars neg ds' (.negSucc m) from rfl] at hy
      rw [hchars] at hy
      injection hy with hy
      rw [← hy]
      exact hd.1
    have hstripDot : rstripChar '.' ⟨formatFChars neg ds' (.negSucc m)⟩ =
        ⟨formatFChars neg ds' (.negSucc m)⟩ := by
      apply rstripChar_noop
      intro y hy
      rw [show (String.mk (formatFChars neg ds' (.negSucc m))).data =
          formatFChars neg ds' (.negSucc m) from rfl] at hy
      rw [hchars] at hy
      injection hy with hy
      rw [← hy]
      exact hd.2
    rw [hstrip0, hstripDot, ite_self]
    exact if_neg (mk_ne_empty _ (formatFChars_ne_nil neg ds' _ hne'))

theorem digitOfChar_lt (c : Char) (h : isDigitChar c = true) : digitOfChar c < 10 := by
  unfold isDigitChar at h
  simp only [Bool.and_eq_true, decide_eq_true_eq] at h
  unfold digitOfChar
  omega

theorem parseMantissaAux_bound (ip rest : List Char) (raw : List Nat) (fl : Nat)
    (hip : ∀ c ∈ ip, isDigitChar c = true)
    (h : parseMantissaAux ip rest = some (raw, fl)) : ∀ d ∈ raw, d < 10 := by
  cases rest with
  | nil =>
    rw [show parseMantissaAux ip [] =
        (if ip.isEmpty then none else some (charsToDigits ip, 0)) from rfl] at h
    split_ifs at h
    injection h with h2
    injection h2 with h3 h4
    subst h3
    intro d hd
    obtain ⟨c, hc, rfl⟩ := List.mem_map.mp hd
    exact digitOfChar_lt c (hip c hc)
  | cons c fp =>
    rw [show parseMantissaAux ip (c :: fp) =
        (if c = '.' then
          (if fp.all isDigitChar && (!ip.isEmpty || !fp.isEmpty) then
            some (charsToDigits (ip ++ fp), fp.length)
          else none)
        else none) from rfl] at h
    split_ifs at h with h1 h2
    injection h with h2'
    injection h2' with h3 h4
    subst h3
    intro d hd
    obtain ⟨x, hx, rfl⟩ := List.mem_map.mp hd
    rcases List.mem_append.mp hx with hm | hm
    · exact digitOfChar_lt x (hip x hm)
    · simp only [Bool.and_eq_true, List.all_eq_true] at h2
      exact digitOfChar_lt x (h2.1 x hm)

theorem parseMantissa_bound (cs : List Char) (raw : List Nat) (fl : Nat)
    (h : parseMantissa cs = some (raw, fl)) : ∀ d ∈ raw, d < 10 := by
  unfold parseMantissa at h
  exact parseMantissaAux_bound _ _ _ _
    (fun c hc => List.mem_takeWhile_imp hc) h

theorem parseNumericBody_finite_inv (neg' : Bool) (cs : List Char) (neg : Bool)
    (ds : List Nat) (e : Int)
    (h : parseNumericBody neg' cs = some (.finite neg ds e)) :
    neg = neg' ∧ (∀ d ∈ ds, d < 10) ∧ ds ≠ [] := by
  unfold parseNumericBody at h
  split at h
  · next raw fl ev heq1 heq2 =>
    injection h with h2
    injection h2 with hneg hds he
    subst hneg
    subst hds
    refine ⟨rfl, ?_, ?_⟩
    · intro d hd
      split at hd
      · simp at hd
        omega
      · exact parseMantissa_bound _ _ _ heq1 d
          (List.Sublist.mem hd (stripLeadingZeros_sublist raw))
    · split
      · simp
      · next hstrip => simpa using hstrip
  · exact absurd h (by simp)

theorem parseAfterSign_finite_inv (neg' : Bool) (cs : List Char) (neg : Bool)
    (ds : List Nat) (e : Int)
    (h : parseAfterSign neg' cs = some (.finite neg ds e)) :
    neg = neg' ∧ (∀ d ∈ ds, d < 10) ∧ ds ≠ [] := by
  unfold parseAfterSign at h
  split_ifs at h <;> first
    | (injection h with h2; injection h2)
    | exact absurd h (by simp)
    | exact parseNumericBody_finite_inv neg' cs neg ds e h

theorem parsePyDecimal_finite_inv (s : String) (neg : Bool) (ds : List Nat) (e : Int)
    (h : parsePyDecimal s = some (.finite neg ds e)) :
    (∀ d ∈ ds, d < 10) ∧ ds ≠ [] := by
  unfold parsePyDecimal at h
  exact (parseAfterSign_finite_inv _ _ _ _ _ h).2

theorem digitChar_isDigit_total (d : Nat) : isDigitChar (digitChar d) = true := by
  unfold digitChar
  split <;> decide

theorem digitChar_ne_dot (d : Nat) : digitChar d ≠ '.' := by
  have h := digitChar_isDigit_total d
  exact (isDigitChar_classes _ h).2.2.2.2.2.2

theorem formatFChars_trimmed (neg : Bool) (ds' : List Nat) (e' : Int)
    (h10' : ∀ d ∈ ds', d < 10) (hne' : ds' ≠ [])
    (hlast : (ds' = [0] ∧ e' = 0) ∨ ∀ x, ds'.getLast? = some x → x ≠ 0) :
    trimmedNumeral ⟨formatFChars neg ds' e'⟩ := by
  refine ⟨formatFChars_ne_nil neg ds' e' hne', ?_, ?_⟩
  · intro x hx
    cases e' with
    | ofNat n =>
      intro hEq
      subst hEq
      exact formatF_ofNat_no_dot neg ds' n h10' (getLast?_mem _ _ hx)
    | negSucc m =>
      obtain ⟨y, hy⟩ : ∃ y, ds'.getLast? = some y := by
        cases hgl : ds'.getLast? with
        | none => exact absurd (List.getLast?_eq_none_iff.mp hgl) hne'
        | some z => exact ⟨z, rfl⟩
      rw [show (String.mk (formatFChars neg ds' (.negSucc m))).data =
          formatFChars neg ds' (.negSucc m) from rfl,
        formatF_negSucc_getLast neg ds' m y hy hne'] at hx
      injection hx with hx
      rw [← hx]
      exact digitChar_ne_dot y
  · intro hdot x hx
    cases e' with
    | ofNat n =>
      exact absurd hdot (formatF_ofNat_no_dot neg ds' n h10')
    | negSucc m =>
      have hlast' : ∀ y, ds'.getLast? = some y → y ≠ 0 := by
        rcases hlast with ⟨-, hEq⟩ | h
        · exact absurd hEq (by simp)
        · exact h
      obtain ⟨y, hy⟩ : ∃ y, ds'.getLast? = some y := by
        cases hgl : ds'.getLast? with
        | none => exact absurd (List.getLast?_eq_none_iff.mp hgl) hne'
        | some z => exact ⟨z, rfl⟩
      rw [show (String.mk (formatFChars neg ds' (.negSucc m))).data =
          formatFChars neg ds' (.negSucc m) from rfl,
        formatF_negSucc_getLast neg ds' m y hy hne'] at hx
      injection hx with hx
      rw [← hx]
      exact (digitChar_ne_zero_dot y (h10' y (getLast?_mem _ _ hy)) (hlast' y hy)).1

theorem format_number_render_no_dot (d : PyDecimal) (hnd : '.' ∉ (pyFormatF d).data)
    (hne : (pyFormatF d).data ≠ []) : format_number_render d = pyFormatF d := by
  unfold format_number_render orText0
  rw [contains_eq_false_of_not_mem _ _ hnd]
  simp only [Bool.false_eq_true, if_false]
  exact if_neg (fun hEq => hne (by rw [hEq]))

theorem pyFormatF_qnan_data (neg : Bool) (p : List Nat) :
    (pyFormatF (.qnan neg p)).data = (if neg then ['-'] else []) ++ 'N' :: 'a' :: 'N' :: digitsChars p := by
  cases neg <;> rfl

theorem pyFormatF_inf_data (neg : Bool) :
    (pyFormatF (.inf neg)).data =
      (if neg then ['-'] else []) ++ 'I' :: 'n' :: 'f' :: 'i' :: 'n' :: 'i' :: 't' :: 'y' :: [] := by
  cases neg <;> rfl

theorem format_number_qnan (s : String) (neg : Bool) (p : List Nat)
    (hp : parsePyDecimal s = some (.qnan neg p)) :
    format_number s = .ok (pyFormatF (.qnan neg p)) := by
  unfold format_number
  rw [hp]
  simp only [Option.elim]
  rw [show decNormalize (.qnan neg p) = .ok (.qnan neg p) from rfl]
  simp only [Except.map]
  congr 1
  apply format_number_render_no_dot
  · rw [pyFormatF_qnan_data]
    intro hmem
    rcases List.mem_append.mp hmem with hs | hm
    · cases neg <;> simp at hs
    · simp only [List.mem_cons] at hm
      rcases hm with h | h | h | h
      · exact absurd h.symm (by decide)
      · exact absurd h.symm (by decide)
      · exact absurd h.symm (by decide)
      · obtain ⟨x, _, hx⟩ := List.mem_map.mp h
        exact digitChar_ne_dot x hx
  · rw [pyFormatF_qnan_data]
    intro hEq
    have := congrArg List.length hEq
    simp at this

theorem format_number_inf (s : String) (neg : Bool)
    (hp : parsePyDecimal s = some (.inf neg)) :
    format_number s = .ok (pyFormatF (.inf neg)) := by
  unfold format_number
  rw [hp]
  simp only [Option.elim]
  rw [show decNormalize (.inf neg) = .ok (.inf neg) from rfl]
  simp only [Except.map]
  congr 1
  apply format_number_render_no_dot
  · rw [pyFormatF_inf_data]
    intro hmem
    rcases List.mem_append.mp hmem with hs | hm
    · cases neg <;> simp at hs
    · simp at hm
  · rw [pyFormatF_inf_data]
    intro hEq
    have := congrArg List.length hEq
    simp at this

/-- C8 (amended): for every input whose string form parses as a finite
decimal with at most 28 significant digits (the default context
precision), `_format_number` returns the shortest exact decimal
representation — trailing fractional zeros and any trailing decimal
point stripped — preserving the exact numeric value; inputs that do not
match the decimal grammar raise a build error; the special grammar forms
NaN and Infinity are rendered by name (not as decimal numerals) rather
than raising, and a signaling NaN raises.  (Inputs with more than 28
significant digits are first rounded half-even to 28 digits, so their
exact value is not preserved — see the counterexample.) -/
theorem C8_format_number_amended (s : String) :
    (parsePyDecimal s = none →
      format_number s = .error ("Invalid numeric value for qbXML quantity: " ++ s)) ∧
    (∀ neg ds e, parsePyDecimal s = some (.finite neg ds e) → ds.length ≤ 28 →
      ∃ out, format_number s = .ok out ∧ trimmedNumeral out ∧
        ∃ d', parsePyDecimal out = some d' ∧ decValue d' = decValue (.finite neg ds e)) ∧
    (∀ neg p, parsePyDecimal s = some (.qnan neg p) →
      format_number s = .ok (pyFormatF (.qnan neg p))) ∧
    (∀ neg, parsePyDecimal s = some (.inf neg) →
      format_number s = .ok (pyFormatF (.inf neg))) ∧
    (∀ neg p, parsePyDecimal s = some (.snan neg p) → ∃ msg, format_number s = .error msg) := by
  refine ⟨?_, ?_, fun neg p hp => format_number_qnan s neg p hp,
    fun neg hp => format_number_inf s neg hp, ?_⟩
  · intro h
    unfold format_number
    rw [h]
    rfl
  · intro neg ds e hp hlen
    obtain ⟨h10, hne⟩ := parsePyDecimal_finite_inv s neg ds e hp
    obtain ⟨ds', e', hok, hval, h10', hne', hlast⟩ := format_number_finite s neg ds e hp hlen h10
    refine ⟨⟨formatFChars neg ds' e'⟩, hok,
      formatFChars_trimmed neg ds' e' h10' hne' hlast, ?_⟩
    obtain ⟨d', hpd', hvd'⟩ := parse_formatF neg ds' e' h10' hne'
    refine ⟨d', hpd', ?_⟩
    rw [hvd', decValue_eq_valQ, hval]
  · intro neg p hp
    unfold format_number
    rw [hp]
    simp only [Option.elim]
    exact ⟨_, rfl⟩

/-- C8 (witness): instantiates the amended formatting theorem at the
input `"2.50"`, whose rendered value is trimmed and value-preserving. -/
theorem C8_witness :
    ∃ out, format_number "2.50" = .ok out ∧ trimmedNumeral out ∧
      ∃ d', parsePyDecimal out = some d' ∧
        decValue d' = decValue (.finite false [2, 5, 0] (-2)) := by
  exact (C8_format_number_amended "2.50").2.1 false [2, 5, 0] (-2) (by decide) (by decide)

/-- C8 (counterexample): the input `1.0000000000000000000000000001`
is a valid decimal number with 29 significant digits; `_format_number`
renders it as `"1"` (the default decimal context rounds to 28
significant digits inside `normalize`), which does not preserve the
exact numeric value, contradicting the claim that every quantity is
rendered as a shortest *exact* decimal representation of the value. -/
theorem C8_counterexample :
    format_number "1.0000000000000000000000000001" = .ok "1" ∧
    parsePyDecimal "1.0000000000000000000000000001" =
      some (.finite false ([1] ++ List.replicate 27 0 ++ [1]) (-28)) ∧
    parsePyDecimal "1" = some (.finite false [1] 0) ∧
    decValue (.finite false ([1] ++ List.replicate 27 0 ++ [1]) (-28)) ≠
      decValue (.finite false [1] 0) := by
  refine ⟨by decide, by decide, by decide, ?_⟩
  rw [decValue_eq_valQ, decValue_eq_valQ]
  intro hEq
  injection hEq with hEq
  have hc : natOfDigits ([1] ++ List.replicate 27 0 ++ [1]) = 10 ^ 28 + 1 := by decide
  unfold valQ at hEq
  rw [hc] at hEq
  simp only [Bool.false_eq_true, if_false, one_mul] at hEq
  have h1 : natOfDigits [1] = 1 := rfl
  rw [h1] at hEq
  have h2 : ((10 : ℚ)) ^ ((0 : Int)) = 1 := by norm_num
  rw [h2] at hEq
  have h3 : ((10 : ℚ)) ^ ((-28 : Int)) = ((10 : ℚ) ^ (28 : Nat))⁻¹ := by
    rw [show ((-28 : Int)) = -((28 : Nat) : Int) by norm_num, zpow_neg, zpow_natCast]
  rw [h3] at hEq
  norm_num at hEq

example :
    build_transfer_request
        { eventId := some "e1", eventType := some "transfer", effectiveDate := some "2026-01-02",
          lines := [{ sku := some "A", qty := some "2.50", fromSiteFullName := some "W1",
                      toSiteFullName := some "W2" },
                    { sku := some "B", qty := some "1", fromSiteFullName := some "W1",
                      toSiteFullName := some "W2" }] }
        "e1" =
      .ok ("<TransferInventoryAddRq requestID=\"e1\"><TransferInventoryAdd>" ++
        "<TxnDate>2026-01-02</TxnDate>" ++
        "<FromInventorySiteRef><FullName>W1</FullName></FromInventorySiteRef>" ++
        "<ToInventorySiteRef><FullName>W2</FullName></ToInventorySiteRef>" ++
        "<Memo>transfer e1</Memo>" ++
        "<TransferInventoryLineAdd><ItemRef><FullName>A</FullName></ItemRef>" ++
        "<QuantityToTransfer>2.5</QuantityToTransfer></TransferInventoryLineAdd>" ++
        "<TransferInventoryLineAdd><ItemRef><FullName>B</FullName></ItemRef>" ++
        "<QuantityToTransfer>1</QuantityToTransfer></TransferInventoryLineAdd>" ++
        "</TransferInventoryAdd></TransferInventoryAddRq>") := by
  set_option maxRecDepth 4096 in decide

example :
    ∃ msg,
      build_transfer_request
          { eventId := some "e1", effectiveDate := some "2026-01-02",
            lines := [{ sku := some "A", qty := some "1", fromSiteFullName := some "W1",
                        toSiteFullName := some "W2" },
                      { sku := some "B", qty := some "1", fromSiteFullName := some "W3",
                        toSiteFullName := some "W2" }] }
          "e1" = .error msg :=
  ⟨_, rfl⟩

/-! Inversion lemmas for the transfer builder. -/

theorem mapME_ok {α β : Type} {f : α → Except String β} :
    ∀ {l : List α} {r : List β}, mapME f l = .ok r →
      r.length = l.length ∧
      ∀ i (hi : i < l.length) (hj : i < r.length), f (l.get ⟨i, hi⟩) = .ok (r.get ⟨i, hj⟩)
  | [], r, h => by
      unfold mapME at h
      injection h with h
      subst h
      exact ⟨rfl, fun i hi _ => absurd hi (Nat.not_lt_zero i)⟩
  | x :: xs, r, h => by
      unfold mapME at h
      cases hfx : f x with
      | error e => rw [hfx] at h; exact Except.noConfusion h
      | ok y =>
        rw [hfx] at h
        cases hrec : mapME f xs with
        | error e => rw [hrec] at h; exact Except.noConfusion h
        | ok ys =>
          rw [hrec] at h
          injection h with h
          subst h
          obtain ⟨hlen, hget⟩ := mapME_ok hrec
          refine ⟨by simp [hlen], ?_⟩
          intro i hi hj
          cases i with
          | zero => simpa using hfx
          | succ n =>
            have hn : n < xs.length := by simpa using hi
            have hn2 : n < ys.length := by simpa [hlen] using hj
            simpa using hget n hn hn2

theorem two_mem_length {α : Type} {L : List α} {a b : α}
    (ha : a ∈ L) (hb : b ∈ L) (hab : a ≠ b) : 2 ≤ L.length := by
  cases L with
  | nil => cases ha
  | cons x t =>
    cases t with
    | nil =>
      simp at ha hb
      subst ha; subst hb
      exact absurd rfl hab
    | cons y t2 => simp [Nat.succ_le_succ, Nat.le_add_left]

theorem siteNamesFrom_mono {field : Line → Option String} :
    ∀ (ls : List Line) (acc : List String) {x : String},
      x ∈ acc → x ∈ siteNamesFrom field acc ls
  | [], _, _, hx => hx
  | _ :: ls, acc, x, hx => by
      simp only [siteNamesFrom]
      apply siteNamesFrom_mono ls
      split
      · exact List.mem_append_left _ hx
      · exact hx

theorem siteNames_mem_of {field : Line → Option String} :
    ∀ (ls : List Line) (acc : List String) (l : Line), l ∈ ls →
      pyStrip ((field l).getD "") ≠ "" →
      pyStrip ((field l).getD "") ∈ siteNamesFrom field acc ls
  | [], _, l, hl, _ => absurd hl (List.not_mem_nil l)
  | l0 :: ls, acc, l, hl, hv => by
      simp only [siteNamesFrom]
      rcases List.mem_cons.mp hl with h | h
      · subst h
        apply siteNamesFrom_mono
        by_cases hmem : pyStrip ((field l).getD "") ∈ acc
        · split
          · exact List.mem_append_left _ hmem
          · exact hmem
        · rw [if_pos ⟨hv, hmem⟩]
          exact List.mem_append_right _ (List.mem_singleton.mpr rfl)
      · exact siteNames_mem_of ls _ l h hv

theorem siteNames_mem {field : Line → Option String} {lines : List Line} {l : Line}
    (hl : l ∈ lines) (hv : pyStrip ((field l).getD "") ≠ "") :
    pyStrip ((field l).getD "") ∈ siteNames field lines :=
  siteNames_mem_of lines [] l hl hv

theorem single_site_name_ok_required {lines : List Line} {field : Line → Option String}
    {desc : String} {v : String}
    (h : single_site_name lines field desc true = .ok v) :
    siteNames field lines = [v] := by
  unfold single_site_name at h
  cases hs : siteNames field lines with
  | nil => rw [hs] at h; simp at h
  | cons x t =>
    cases t with
    | nil =>
      rw [hs] at h
      injection h with h
      rw [h]
    | cons y t2 => rw [hs] at h; exact Except.noConfusion h

theorem renderTransferLine_ok {line : Line} {y : String}
    (h : renderTransferLine line = .ok y) :
    ∃ nm q, line_item_full_name_strict line = .ok nm ∧
      format_number (pyStr line.qty) = .ok q ∧
      y = "<TransferInventoryLineAdd><ItemRef><FullName>" ++ escapeXml nm ++
        "</FullName></ItemRef><QuantityToTransfer>" ++ q ++
        "</QuantityToTransfer></TransferInventoryLineAdd>" := by
  unfold renderTransferLine at h
  cases hn : line_item_full_name_strict line with
  | error e => rw [hn] at h; exact Except.noConfusion h
  | ok nm =>
    rw [hn] at h
    cases hq : format_number (pyStr line.qty) with
    | error e => rw [hq] at h; exact Except.noConfusion h
    | ok q =>
      rw [hq] at h
      injection h with h
      exact ⟨nm, q, rfl, rfl, h.symm⟩

theorem build_transfer_request_ok {event : Event} {requestId out : String}
    (h : build_transfer_request event requestId = .ok out) :
    ∃ fromSite toSite lxs,
      siteNames Line.fromSiteFullName event.lines = [fromSite] ∧
      siteNames Line.toSiteFullName event.lines = [toSite] ∧
      mapME renderTransferLine event.lines = .ok lxs ∧
      out = "<TransferInventoryAddRq requestID=\"" ++ escapeXml requestId ++ "\">" ++
        "<TransferInventoryAdd>" ++
        "<TxnDate>" ++ escapeXml (event.effectiveDate.getD "") ++ "</TxnDate>" ++
        "<FromInventorySiteRef><FullName>" ++ escapeXml fromSite ++
          "</FullName></FromInventorySiteRef>" ++
        "<ToInventorySiteRef><FullName>" ++ escapeXml toSite ++
          "</FullName></ToInventorySiteRef>" ++
        "<Memo>" ++ escapeXml (memo_for_event event) ++ "</Memo>" ++
        String.join lxs ++
        "</TransferInventoryAdd>" ++
        "</TransferInventoryAddRq>" := by
  simp only [build_transfer_request] at h
  by_cases hL : event.lines = []
  · rw [if_pos hL] at h; exact Except.noConfusion h
  · rw [if_neg hL] at h
    by_cases hD : escapeXml (event.effectiveDate.getD "") = ""
    · rw [if_pos hD] at h; exact Except.noConfusion h
    · rw [if_neg hD] at h
      cases hfs : single_site_name event.lines Line.fromSiteFullName
        "Transfer from site mapping" true with
      | error e => rw [hfs] at h; exact Except.noConfusion h
      | ok fromSite =>
        rw [hfs] at h
        cases hts : single_site_name event.lines Line.toSiteFullName
          "Transfer to site mapping" true with
        | error e => rw [hts] at h; exact Except.noConfusion h
        | ok toSite =>
          rw [hts] at h
          cases hmm : mapME renderTransferLine event.lines with
          | error e => rw [hmm] at h; exact Except.noConfusion h
          | ok lxs =>
            rw [hmm] at h
            injection h with h
            exact ⟨fromSite, toSite, lxs,
              single_site_name_ok_required hfs,
              single_site_name_ok_required hts, rfl, h.symm⟩

/-- C4: a transfer build succeeds only when the lines agree on exactly
one distinct non-empty source site name and exactly one distinct
non-empty destination site name; two lines with different non-empty
values for the source (or destination) site force a build error; and
on success the emitted XML is the fixed envelope around the
concatenation of exactly one `TransferInventoryLineAdd` element per
input line, the i-th carrying line i's name and its decimal-trimmed
quantity as rendered by `format_number`. -/
theorem C4_transfer_single_site_and_lines (event : Event) (requestId : String) :
    (∀ out, build_transfer_request event requestId = .ok out →
      ∃ fromSite toSite lxs,
        siteNames Line.fromSiteFullName event.lines = [fromSite] ∧
        siteNames Line.toSiteFullName event.lines = [toSite] ∧
        lxs.length = event.lines.length ∧
        (∀ i (hi : i < event.lines.length) (hj : i < lxs.length),
          ∃ nm q,
            line_item_full_name_strict (event.lines.get ⟨i, hi⟩) = .ok nm ∧
            format_number (pyStr (event.lines.get ⟨i, hi⟩).qty) = .ok q ∧
            lxs.get ⟨i, hj⟩ =
              "<TransferInventoryLineAdd><ItemRef><FullName>" ++ escapeXml nm ++
                "</FullName></ItemRef><QuantityToTransfer>" ++ q ++
                "</QuantityToTransfer></TransferInventoryLineAdd>") ∧
        out = "<TransferInventoryAddRq requestID=\"" ++ escapeXml requestId ++ "\">" ++
          "<TransferInventoryAdd>" ++
          "<TxnDate>" ++ escapeXml (event.effectiveDate.getD "") ++ "</TxnDate>" ++
          "<FromInventorySiteRef><FullName>" ++ escapeXml fromSite ++
            "</FullName></FromInventorySiteRef>" ++
          "<ToInventorySiteRef><FullName>" ++ escapeXml toSite ++
            "</FullName></ToInventorySiteRef>" ++
          "<Memo>" ++ escapeXml (memo_for_event event) ++ "</Memo>" ++
          String.join lxs ++
          "</TransferInventoryAdd>" ++
          "</TransferInventoryAddRq>") ∧
    (∀ l1, l1 ∈ event.lines → ∀ l2, l2 ∈ event.lines →
      pyStrip ((l1.fromSiteFullName).getD "") ≠ "" →
      pyStrip ((l2.fromSiteFullName).getD "") ≠ "" →
      pyStrip ((l1.fromSiteFullName).getD "") ≠ pyStrip ((l2.fromSiteFullName).getD "") →
      ∃ msg, build_transfer_request event requestId = .error msg) ∧
    (∀ l1, l1 ∈ event.lines → ∀ l2, l2 ∈ event.lines →
      pyStrip ((l1.toSiteFullName).getD "") ≠ "" →
      pyStrip ((l2.toSiteFullName).getD "") ≠ "" →
      pyStrip ((l1.toSiteFullName).getD "") ≠ pyStrip ((l2.toSiteFullName).getD "") →
      ∃ msg, build_transfer_request event requestId = .error msg) := by
  refine ⟨?_, ?_, ?_⟩
  · intro out h
    obtain ⟨fromSite, toSite, lxs, hfs, hts, hmm, hout⟩ := build_transfer_request_ok h
    obtain ⟨hlen, hget⟩ := mapME_ok hmm
    refine ⟨fromSite, toSite, lxs, hfs, hts, hlen, ?_, hout⟩
    intro i hi hj
    obtain ⟨nm, q, hnm, hq, hy⟩ := renderTransferLine_ok (hget i hi hj)
    exact ⟨nm, q, hnm, hq, hy ▸ rfl⟩
  · intro l1 hl1 l2 hl2 hv1 hv2 hne
    cases hb : build_transfer_request event requestId with
    | error e => exact ⟨e, rfl⟩
    | ok out =>
      exfalso
      obtain ⟨fromSite, _, _, hfs, _, _, _⟩ := build_transfer_request_ok hb
      have h1 := @siteNames_mem Line.fromSiteFullName event.lines l1 hl1 hv1
      have h2 := @siteNames_mem Line.fromSiteFullName event.lines l2 hl2 hv2
      have := two_mem_length h1 h2 hne
      rw [hfs] at this
      simp at this
  · intro l1 hl1 l2 hl2 hv1 hv2 hne
    cases hb : build_transfer_request event requestId with
    | error e => exact ⟨e, rfl⟩
    | ok out =>
      exfalso
      obtain ⟨_, toSite, _, _, hts, _, _⟩ := build_transfer_request_ok hb
      have h1 := @siteNames_mem Line.toSiteFullName event.lines l1 hl1 hv1
      have h2 := @siteNames_mem Line.toSiteFullName event.lines l2 hl2 hv2
      have := two_mem_length h1 h2 hne
      rw [hts] at this
      simp at this

theorem C4_witness :
    ((∃ (fS tS : String) (lxs : List String),
      siteNames Line.fromSiteFullName C4evGood.lines = [fS] ∧
      siteNames Line.toSiteFullName C4evGood.lines = [tS] ∧
      lxs.length = C4evGood.lines.length) ∧
    (∃ msg, build_transfer_request C4evDiff "e1" = .error msg)) := by
  constructor
  · obtain ⟨fS, tS, lxs, h1, h2, h3, _, _⟩ :=
      (C4_transfer_single_site_and_lines C4evGood "e1").1
        ("<TransferInventoryAddRq requestID=\"e1\"><TransferInventoryAdd>" ++
          "<TxnDate>2026-01-02</TxnDate>" ++
          "<FromInventorySiteRef><FullName>W1</FullName></FromInventorySiteRef>" ++
          "<ToInventorySiteRef><FullName>W2</FullName></ToInventorySiteRef>" ++
          "<Memo>transfer e1</Memo>" ++
          "<TransferInventoryLineAdd><ItemRef><FullName>A</FullName></ItemRef>" ++
          "<QuantityToTransfer>2.5</QuantityToTransfer></TransferInventoryLineAdd>" ++
          "</TransferInventoryAdd></TransferInventoryAddRq>")
        (by set_option maxRecDepth 8192 in decide)
    exact ⟨fS, tS, lxs, h1, h2, h3⟩
  · exact (C4_transfer_single_site_and_lines C4evDiff "e1").2.1
      C4lineFromW1 (by decide) C4lineFromW3 (by decide)
      (by decide) (by decide) (by decide)

theorem containsSub_iff (pat : List Char) :
    ∀ (s : List Char), containsSub pat s = true ↔ ∃ t, t <:+ s ∧ pat <+: t
  | [] => by
      simp only [containsSub, List.isEmpty_iff]
      constructor
      · intro h
        exact ⟨[], List.suffix_refl _, h ▸ List.prefix_refl _⟩
      · rintro ⟨t, ht, hp⟩
        have : t = [] := List.eq_nil_of_suffix_nil ht
        subst this
        exact List.eq_nil_of_prefix_nil hp
  | c :: rest => by
      simp only [containsSub, Bool.or_eq_true, List.isPrefixOf_iff_prefix]
      constructor
      · rintro (h | h)
        · exact ⟨c :: rest, List.suffix_refl _, h⟩
        · obtain ⟨t, ht, hp⟩ := (containsSub_iff pat rest).mp h
          exact ⟨t, ht.trans (List.suffix_cons c rest), hp⟩
      · rintro ⟨t, ht, hp⟩
        rcases List.suffix_cons_iff.mp ht with h | h
        · subst h; exact Or.inl hp
        · exact Or.inr ((containsSub_iff pat rest).mpr ⟨t, h, hp⟩)

theorem suffix_append_cases {α : Type} :
    ∀ (a : List α) {t b : List α}, t <:+ a ++ b →
      t <:+ b ∨ ∃ s, s <:+ a ∧ s ≠ [] ∧ t = s ++ b
  | [], _, _, h => Or.inl h
  | x :: a, t, b, h => by
      rw [List.cons_append] at h
      rcases List.suffix_cons_iff.mp h with h | h
      · exact Or.inr ⟨x :: a, List.suffix_refl _, by simp, h⟩
      · rcases suffix_append_cases a h with h | ⟨s, hs, hne, ht⟩
        · exact Or.inl h
        · exact Or.inr ⟨s, hs.trans (List.suffix_cons x a), hne, ht⟩

theorem containsSub_of_within {pat t s : List Char} (hp : pat <+: t) (ht : t <:+ s) :
    containsSub pat s = true :=
  (containsSub_iff pat s).mpr ⟨t, ht, hp⟩

theorem GoodFrag.append {pat a b : List Char} (ha : GoodFrag pat a) (hb : GoodFrag pat b) :
    GoodFrag pat (a ++ b) := by
  obtain ⟨ha1, ha2⟩ := ha
  obtain ⟨hb1, hb2⟩ := hb
  constructor
  · by_contra hc
    rw [Bool.not_eq_false] at hc
    obtain ⟨t, ht, hpre⟩ := (containsSub_iff pat (a ++ b)).mp hc
    rcases suffix_append_cases a ht with h | ⟨s, hs, hne, hteq⟩
    · rw [containsSub_of_within hpre h] at hb1
      exact Bool.noConfusion hb1
    · subst hteq
      by_cases hlen : pat.length ≤ s.length
      · have hps : pat <+: s :=
          List.prefix_of_prefix_length_le hpre (List.prefix_append s b) hlen
        rw [containsSub_of_within hps hs] at ha1
        exact Bool.noConfusion ha1
      · push_neg at hlen
        have hsp : s <+: pat :=
          List.prefix_of_prefix_length_le (List.prefix_append s b) hpre (Nat.le_of_lt hlen)
        have hse : s = pat.take s.length := List.prefix_iff_eq_take.mp hsp
        have hpos : 0 < s.length := List.length_pos.mpr hne
        exact ha2 s.length hpos hlen (hse ▸ hs)
  · intro k hk0 hklen hsuf
    rcases suffix_append_cases a hsuf with h | ⟨s, hs, hne, hteq⟩
    · -- the prefix would be a suffix of b
      by_cases hkb : (pat.take k).length ≤ b.length
      · exact hb2 k hk0 hklen h
      · exact hb2 k hk0 hklen h
    · -- pat.take k = s ++ b with s a nonempty suffix of a
      have hsp : s <+: pat.take k := hteq ▸ List.prefix_append s b
      have hsp2 : s <+: pat := hsp.trans (List.take_prefix k pat)
      have hse : s = pat.take s.length := List.prefix_iff_eq_take.mp hsp2
      have hslen : s.length ≤ (pat.take k).length := hsp.length_le
      have hklen2 : (pat.take k).length ≤ k := by
        simp [Nat.min_le_left k pat.length]
      have hpos : 0 < s.length := List.length_pos.mpr hne
      exact ha2 s.length hpos (Nat.lt_of_le_of_lt (hslen.trans hklen2) hklen) (hse ▸ hs)

theorem goodFrag_of_checks {pat f : List Char} (h1 : containsSub pat f = false)
    (h2 : noStraddleB pat f = true) : GoodFrag pat f := by
  refine ⟨h1, ?_⟩
  intro k hk0 hklen hsuf
  have := List.all_eq_true.mp h2 k (List.mem_range.mpr hklen)
  rcases Bool.or_eq_true _ _ |>.mp this with h | h
  · rw [beq_iff_eq] at h
    omega
  · rw [Bool.not_eq_true'] at h
    rw [← List.isSuffixOf_iff_suffix] at hsuf
    rw [hsuf] at h
    exact Bool.noConfusion h

theorem goodFrag_no_head_char {c : Char} {pr f : List Char} (h : c ∉ f) :
    GoodFrag (c :: pr) f := by
  constructor
  · by_contra hc
    rw [Bool.not_eq_false] at hc
    obtain ⟨t, ht, hpre⟩ := (containsSub_iff (c :: pr) f).mp hc
    have hct : c ∈ t := hpre.subset (List.mem_cons_self c pr)
    exact h (ht.subset hct)
  · intro k hk0 _ hsuf
    have hck : c ∈ (c :: pr).take k := by
      cases k with
      | zero => exact absurd hk0 (Nat.lt_irrefl 0)
      | succ n => simp [List.take]
    exact h (hsuf.subset hck)

/-! No character `<` ever appears in escaped text or in a rendered
number, so occurrences of a tag can only start inside literal XML. -/

theorem escChar_no_lt (c : Char) : ('<' : Char) ∉ escChar c := by
  unfold escChar
  split_ifs with h1 h2 h3
  · decide
  · decide
  · decide
  · intro hm
    rw [List.mem_singleton] at hm
    exact h2 hm.symm

theorem escapeXml_no_lt (s : String) : ('<' : Char) ∉ (escapeXml s).data := by
  intro hm
  obtain ⟨l, hl, hcl⟩ := List.mem_flatten.mp hm
  obtain ⟨c, _, hc⟩ := List.mem_map.mp hl
  exact escChar_no_lt c (hc ▸ hcl)

theorem digitChar_ne_lt (d : Nat) : digitChar d ≠ '<' := by
  intro h
  have := digitChar_isDigit_total d
  rw [h] at this
  exact absurd this (by decide)

theorem digitsChars_no_lt (p : List Nat) : ('<' : Char) ∉ digitsChars p := by
  intro h
  simp only [digitsChars] at h
  obtain ⟨x, _, hx⟩ := List.mem_map.mp h
  exact digitChar_ne_lt x hx

theorem sign_chars_no_lt (neg : Bool) : ('<' : Char) ∉ (if neg then ['-'] else []) := by
  cases neg <;> decide

theorem formatFChars_no_lt (neg : Bool) (ds : List Nat) (e : Int) :
    ('<' : Char) ∉ formatFChars neg ds e := by
  intro hmem
  cases e with
  | ofNat n =>
    simp only [formatFChars, List.mem_append] at hmem
    rcases hmem with (h | h) | h
    · exact sign_chars_no_lt neg h
    · exact digitsChars_no_lt ds h
    · exact absurd (List.eq_of_mem_replicate h) (by decide)
  | negSucc m =>
    simp only [formatFChars] at hmem
    by_cases hlt : m + 1 < ds.length
    · rw [if_pos hlt] at hmem
      rcases List.mem_append.mp hmem with h | h
      · rcases List.mem_append.mp h with h2 | h2
        · exact sign_chars_no_lt neg h2
        · exact digitsChars_no_lt _ h2
      · rcases List.mem_cons.mp h with h2 | h2
        · exact absurd h2 (by decide)
        · exact digitsChars_no_lt _ h2
    · rw [if_neg hlt] at hmem
      rcases List.mem_append.mp hmem with h | h
      · exact sign_chars_no_lt neg h
      · rcases List.mem_cons.mp h with h2 | h2
        · exact absurd h2 (by decide)
        · rcases List.mem_cons.mp h2 with h3 | h3
          · exact absurd h3 (by decide)
          · rcases List.mem_append.mp h3 with h4 | h4
            · exact absurd (List.eq_of_mem_replicate h4) (by decide)
            · exact digitsChars_no_lt _ h4

theorem pyFormatF_no_lt (d : PyDecimal) : ('<' : Char) ∉ (pyFormatF d).data := by
  cases d with
  | finite neg ds e => exact formatFChars_no_lt neg ds e
  | inf neg =>
    rw [pyFormatF_inf_data]
    intro hm
    rcases List.mem_append.mp hm with h | h
    · exact sign_chars_no_lt neg h
    · simp at h
  | qnan neg p =>
    rw [pyFormatF_qnan_data]
    intro hm
    rcases List.mem_append.mp hm with h | h
    · exact sign_chars_no_lt neg h
    · rcases List.mem_cons.mp h with h2 | h2
      · exact absurd h2 (by decide)
      · rcases List.mem_cons.mp h2 with h3 | h3
        · exact absurd h3 (by decide)
        · rcases List.mem_cons.mp h3 with h4 | h4
          · exact absurd h4 (by decide)
          · exact digitsChars_no_lt _ h4
  | snan neg p =>
    intro hm
    cases neg <;>
      · simp only [pyFormatF] at hm
        exact digitsChars_no_lt p (by simpa using hm)

theorem rstripChar_subset {x : Char} (ch : Char) (s : String)
    (h : x ∈ (rstripChar ch s).data) : x ∈ s.data := by
  unfold rstripChar at h
  rw [List.mem_reverse] at h
  have hsub : List.Sublist (List.dropWhile (· == ch) s.data.reverse) s.data.reverse :=
    List.dropWhile_sublist _
  exact List.mem_reverse.mp (hsub.subset h)

theorem format_number_render_no_lt (d : PyDecimal) :
    ('<' : Char) ∉ (format_number_render d).data := by
  unfold format_number_render orText0
  split_ifs with h1 h2 h3
  · decide
  · intro hm
    exact pyFormatF_no_lt d (rstripChar_subset _ _ (rstripChar_subset _ _ hm))
  · decide
  · exact pyFormatF_no_lt d

theorem format_number_ok_no_lt {v q : String} (h : format_number v = .ok q) :
    ('<' : Char) ∉ q.data := by
  unfold format_number at h
  cases hparse : parsePyDecimal v with
  | none => rw [hparse] at h; simp only [Option.elim] at h; exact Except.noConfusion h
  | some dec =>
    rw [hparse] at h
    simp only [Option.elim] at h
    cases hn : decNormalize dec with
    | error e => rw [hn] at h; simp only [Except.map] at h; exact Except.noConfusion h
    | ok norm =>
      rw [hn] at h
      simp only [Except.map] at h
      injection h with h
      exact h ▸ format_number_render_no_lt norm

theorem goodFrag_nil {pat : List Char} (hp : pat ≠ []) : GoodFrag pat [] := by
  constructor
  · simp [containsSub, List.isEmpty_iff, hp]
  · intro k hk0 hklen hsuf
    have h0 := List.eq_nil_of_suffix_nil hsuf
    have hlen := congrArg List.length h0
    rw [List.length_take] at hlen
    simp only [List.length_nil] at hlen
    omega

theorem goodFrag_siteRef_no_lt {f : List Char} (h : ('<' : Char) ∉ f) :
    GoodFrag siteRefPat f :=
  goodFrag_no_head_char h

theorem containsSub_append_right {pat a b : List Char} (h : containsSub pat b = true) :
    containsSub pat (a ++ b) = true := by
  obtain ⟨t, ht, hp⟩ := (containsSub_iff pat b).mp h
  exact containsSub_of_within hp (ht.trans (List.suffix_append a b))

theorem containsSub_of_prefix {pat b : List Char} (h : pat <+: b) :
    containsSub pat b = true :=
  containsSub_of_within h (List.suffix_refl b)

theorem join_data_aux :
    ∀ (l : List String) (acc : String),
      (List.foldl (fun r s => r ++ s) acc l).data = acc.data ++ (l.map String.data).flatten
  | [], acc => by simp
  | s :: rest, acc => by
      simp only [List.foldl_cons, List.map_cons, List.flatten_cons]
      rw [join_data_aux rest (acc ++ s)]
      simp [List.append_assoc]

theorem join_data (l : List String) :
    (String.join l).data = (l.map String.data).flatten := by
  unfold String.join
  rw [join_data_aux l ""]
  rfl

theorem goodFrag_flatten {pat : List Char} (hp : pat ≠ []) :
    ∀ (ls : List (List Char)), (∀ f ∈ ls, GoodFrag pat f) → GoodFrag pat ls.flatten
  | [], _ => goodFrag_nil hp
  | f :: rest, h => by
      rw [List.flatten_cons]
      exact (h f (List.mem_cons_self f rest)).append
        (goodFrag_flatten hp rest (fun g hg => h g (List.mem_cons_of_mem f hg)))

theorem mapME_mem {α β : Type} {f : α → Except String β} :
    ∀ {l : List α} {r : List β}, mapME f l = .ok r →
      ∀ y ∈ r, ∃ x ∈ l, f x = .ok y
  | [], r, h => by
      unfold mapME at h
      injection h with h
      subst h
      intro y hy
      cases hy
  | x :: xs, r, h => by
      unfold mapME at h
      cases hfx : f x with
      | error e => rw [hfx] at h; exact Except.noConfusion h
      | ok v =>
        rw [hfx] at h
        cases hrec : mapME f xs with
        | error e => rw [hrec] at h; exact Except.noConfusion h
        | ok ys =>
          rw [hrec] at h
          injection h with h
          subst h
          intro y hy
          rcases List.mem_cons.mp hy with hy | hy
          · exact ⟨x, List.mem_cons_self x xs, hy ▸ hfx⟩
          · obtain ⟨x2, hx2, hfx2⟩ := mapME_mem hrec y hy
            exact ⟨x2, List.mem_cons_of_mem x hx2, hfx2⟩

theorem renderAdjustmentLine_ok {line : Line} {y : String}
    (h : renderAdjustmentLine line = .ok y) :
    ∃ nm q tagO tagC,
      line_item_full_name_strict line = .ok nm ∧
      ((line.newQty ≠ none ∧ format_number (pyStr line.newQty) = .ok q ∧
          tagO = "<NewQuantity>" ∧ tagC = "</NewQuantity>") ∨
       (line.newQty = none ∧ format_number (pyStr line.qty) = .ok q ∧
          tagO = "<QuantityDifference>" ∧ tagC = "</QuantityDifference>")) ∧
      y = "<InventoryAdjustmentLineAdd><ItemRef><FullName>" ++ escapeXml nm ++
        "</FullName></ItemRef><QuantityAdjustment>" ++ (tagO ++ q ++ tagC) ++
        "</QuantityAdjustment></InventoryAdjustmentLineAdd>" := by
  unfold renderAdjustmentLine at h
  cases hnm : line_item_full_name_strict line with
  | error e => rw [hnm] at h; exact Except.noConfusion h
  | ok nm =>
    rw [hnm] at h
    cases hnew : line.newQty with
    | some w =>
      rw [hnew] at h
      cases hq : format_number (pyStr (some w)) with
      | error e =>
        rw [hq] at h
        simp only [Except.map] at h
        exact Except.noConfusion h
      | ok q =>
        rw [hq] at h
        simp only [Except.map] at h
        injection h with h
        refine ⟨nm, q, "<NewQuantity>", "</NewQuantity>", rfl, Or.inl ⟨?_, ?_, rfl, rfl⟩, h.symm⟩
        · exact fun hc => Option.noConfusion hc
        · rfl
    | none =>
      rw [hnew] at h
      cases hq : format_number (pyStr line.qty) with
      | error e =>
        rw [hq] at h
        simp only [Except.map] at h
        exact Except.noConfusion h
      | ok q =>
        rw [hq] at h
        simp only [Except.map] at h
        injection h with h
        exact ⟨nm, q, "<QuantityDifference>", "</QuantityDifference>", rfl,
          Or.inr ⟨rfl, rfl, rfl, rfl⟩, h.symm⟩

theorem build_adjustment_request_ok {event : Event}
    {requestId defaultAdjustmentAccount qbxmlVersion freshUuid out : String}
    (h : build_adjustment_request event requestId defaultAdjustmentAccount
      qbxmlVersion freshUuid = .ok out) :
    ∃ siteName lineXml,
      single_site_name event.lines Line.siteFullName "Adjustment site mapping"
        (decide (10 ≤ qbxml_version_major qbxmlVersion)) = .ok siteName ∧
      mapME renderAdjustmentLine event.lines = .ok lineXml ∧
      out = "<InventoryAdjustmentAddRq requestID=\"" ++ escapeXml requestId ++ "\">" ++
        "<InventoryAdjustmentAdd>" ++
        "<AccountRef><FullName>" ++
          escapeXml (normalize_account_full_name
            (adjustment_account_name event.lines defaultAdjustmentAccount)) ++
          "</FullName></AccountRef>" ++
        "<TxnDate>" ++ escapeXml (event.effectiveDate.getD "") ++ "</TxnDate>" ++
        adjustment_site_xml siteName (qbxml_version_major qbxmlVersion) ++
        "<Memo>" ++ escapeXml (memo_for_event event) ++ "</Memo>" ++
        external_guid_xml event qbxmlVersion freshUuid ++
        String.join lineXml ++
        "</InventoryAdjustmentAdd>" ++
        "</InventoryAdjustmentAddRq>" := by
  simp only [build_adjustment_request] at h
  by_cases hL : event.lines = []
  · rw [if_pos hL] at h; exact Except.noConfusion h
  · rw [if_neg hL] at h
    by_cases hD : escapeXml (event.effectiveDate.getD "") = ""
    · rw [if_pos hD] at h; exact Except.noConfusion h
    · rw [if_neg hD] at h
      by_cases hA : normalize_account_full_name
          (adjustment_account_name event.lines defaultAdjustmentAccount) = ""
      · rw [if_pos hA] at h; exact Except.noConfusion h
      · rw [if_neg hA] at h
        cases hss : single_site_name event.lines Line.siteFullName "Adjustment site mapping"
          (decide (10 ≤ qbxml_version_major qbxmlVersion)) with
        | error e => rw [hss] at h; exact Except.noConfusion h
        | ok siteName =>
          rw [hss] at h
          cases hmm : mapME renderAdjustmentLine event.lines with
          | error e => rw [hmm] at h; exact Except.noConfusion h
          | ok lineXml =>
            rw [hmm] at h
            injection h with h
            exact ⟨siteName, lineXml, rfl, rfl, h.symm⟩

theorem goodFrag_adjLine {line : Line} {y : String}
    (h : renderAdjustmentLine line = .ok y) : GoodFrag siteRefPat y.data := by
  obtain ⟨nm, q, tagO, tagC, _, hqc, hy⟩ := renderAdjustmentLine_ok h
  subst hy
  rcases hqc with ⟨_, hq, rfl, rfl⟩ | ⟨_, hq, rfl, rfl⟩ <;>
  · have hqlt := format_number_ok_no_lt hq
    simp only [String.data_append]
    exact ((((goodFrag_of_checks (by decide) (by decide)).append
        (goodFrag_siteRef_no_lt (escapeXml_no_lt nm))).append
        (goodFrag_of_checks (by decide) (by decide))).append
        (((goodFrag_of_checks (by decide) (by decide)).append
          (goodFrag_siteRef_no_lt hqlt)).append
          (goodFrag_of_checks (by decide) (by decide)))).append
        (goodFrag_of_checks (by decide) (by decide))

theorem goodFrag_adjLineXml {lines : List Line} {lineXml : List String}
    (h : mapME renderAdjustmentLine lines = .ok lineXml) :
    GoodFrag siteRefPat (String.join lineXml).data := by
  rw [join_data]
  apply goodFrag_flatten (by decide)
  intro f hf
  obtain ⟨y, hy, hfy⟩ := List.mem_map.mp hf
  obtain ⟨x, _, hx⟩ := mapME_mem h y hy
  exact hfy ▸ goodFrag_adjLine hx

theorem goodFrag_guid (event : Event) (qbxmlVersion freshUuid : String) :
    GoodFrag siteRefPat (external_guid_xml event qbxmlVersion freshUuid).data := by
  unfold external_guid_xml
  split_ifs
  · simp only [String.data_append]
    exact ((goodFrag_of_checks (by decide) (by decide)).append
      (goodFrag_siteRef_no_lt (escapeXml_no_lt _))).append
      (goodFrag_of_checks (by decide) (by decide))
  · exact goodFrag_nil (by decide)

theorem siteNamesFrom_mem_ne {field : Line → Option String} :
    ∀ (ls : List Line) (acc : List String) (x : String),
      x ∈ siteNamesFrom field acc ls → x ∈ acc ∨ x ≠ ""
  | [], _, _, h => Or.inl h
  | l :: ls, acc, x, h => by
      simp only [siteNamesFrom] at h
      rcases siteNamesFrom_mem_ne ls _ x h with h2 | h2
      · by_cases hcond : pyStrip ((field l).getD "") ≠ "" ∧ pyStrip ((field l).getD "") ∉ acc
        · rw [if_pos hcond] at h2
          rcases List.mem_append.mp h2 with h3 | h3
          · exact Or.inl h3
          · rw [List.mem_singleton] at h3
            subst h3
            exact Or.inr hcond.1
        · rw [if_neg hcond] at h2
          exact Or.inl h2
      · exact Or.inr h2

theorem siteNames_mem_ne {field : Line → Option String} {lines : List Line} {x : String}
    (h : x ∈ siteNames field lines) : x ≠ "" := by
  rcases siteNamesFrom_mem_ne lines [] x h with h2 | h2
  · cases h2
  · exact h2

theorem siteNamesFrom_blank {field : Line → Option String} :
    ∀ (ls : List Line) (acc : List String),
      (∀ l ∈ ls, pyStrip ((field l).getD "") = "") → siteNamesFrom field acc ls = acc
  | [], _, _ => rfl
  | l :: ls, acc, h => by
      simp only [siteNamesFrom]
      rw [if_neg (fun hc => hc.1 (h l (List.mem_cons_self l ls)))]
      exact siteNamesFrom_blank ls acc (fun l2 hl2 => h l2 (List.mem_cons_of_mem l hl2))

/-- C5: for every adjustment event that builds successfully, the
produced XML contains an `InventorySiteRef` element exactly when the
qbXML major version is at least 10; and with major at least 10 the
absence of a site name from every line makes the build fail. -/
theorem C5_adjustment_site_ref (event : Event)
    (requestId defaultAdjustmentAccount qbxmlVersion freshUuid : String) :
    (∀ out, build_adjustment_request event requestId defaultAdjustmentAccount
        qbxmlVersion freshUuid = .ok out →
      (containsSub siteRefPat out.data = true ↔
        10 ≤ qbxml_version_major qbxmlVersion)) ∧
    (10 ≤ qbxml_version_major qbxmlVersion →
      (∀ l, l ∈ event.lines → pyStrip ((l.siteFullName).getD "") = "") →
      ∃ msg, build_adjustment_request event requestId defaultAdjustmentAccount
        qbxmlVersion freshUuid = .error msg) := by
  constructor
  · intro out h
    obtain ⟨siteName, lineXml, hss, hmm, hout⟩ := build_adjustment_request_ok h
    constructor
    · intro hcontains
      by_contra hmaj
      have hsx : adjustment_site_xml siteName (qbxml_version_major qbxmlVersion) = "" := by
        unfold adjustment_site_xml
        exact if_neg (fun hc => hmaj hc.2)
      have hgood : GoodFrag siteRefPat out.data := by
        have g1 : GoodFrag siteRefPat "<InventoryAdjustmentAddRq requestID=\"".data :=
          goodFrag_of_checks (by decide) (by decide)
        have g3 : GoodFrag siteRefPat "\">".data :=
          goodFrag_of_checks (by decide) (by decide)
        have g4 : GoodFrag siteRefPat "<InventoryAdjustmentAdd>".data :=
          goodFrag_of_checks (by decide) (by decide)
        have g5 : GoodFrag siteRefPat "<AccountRef><FullName>".data :=
          goodFrag_of_checks (by decide) (by decide)
        have g7 : GoodFrag siteRefPat "</FullName></AccountRef>".data :=
          goodFrag_of_checks (by decide) (by decide)
        have g8 : GoodFrag siteRefPat "<TxnDate>".data :=
          goodFrag_of_checks (by decide) (by decide)
        have g10 : GoodFrag siteRefPat "</TxnDate>".data :=
          goodFrag_of_checks (by decide) (by decide)
        have g12 : GoodFrag siteRefPat "<Memo>".data :=
          goodFrag_of_checks (by decide) (by decide)
        have g14 : GoodFrag siteRefPat "</Memo>".data :=
          goodFrag_of_checks (by decide) (by decide)
        have g17 : GoodFrag siteRefPat "</InventoryAdjustmentAdd>".data :=
          goodFrag_of_checks (by decide) (by decide)
        have g18 : GoodFrag siteRefPat "</InventoryAdjustmentAddRq>".data :=
          goodFrag_of_checks (by decide) (by decide)
        rw [hout, hsx]
        simp only [String.data_append, List.append_assoc]
        exact g1.append ((goodFrag_siteRef_no_lt (escapeXml_no_lt _)).append (g3.append (g4.append (g5.append ((goodFrag_siteRef_no_lt (escapeXml_no_lt _)).append (g7.append (g8.append ((goodFrag_siteRef_no_lt (escapeXml_no_lt _)).append (g10.append ((goodFrag_nil (by decide)).append (g12.append ((goodFrag_siteRef_no_lt (escapeXml_no_lt _)).append (g14.append ((goodFrag_guid event qbxmlVersion freshUuid).append ((goodFrag_adjLineXml hmm).append (g17.append (g18)))))))))))))))))
      rw [hgood.1] at hcontains
      exact Bool.noConfusion hcontains
    · intro hmaj
      rw [decide_eq_true hmaj] at hss
      have hnames := single_site_name_ok_required hss
      have hne : siteName ≠ "" :=
        siteNames_mem_ne (hnames ▸ List.mem_singleton.mpr rfl)
      have hsx : adjustment_site_xml siteName (qbxml_version_major qbxmlVersion) =
          "<InventorySiteRef><FullName>" ++ escapeXml siteName ++
            "</FullName></InventorySiteRef>" := by
        unfold adjustment_site_xml
        exact if_pos ⟨hne, hmaj⟩
      rw [hout, hsx]
      simp only [String.data_append, List.append_assoc]
      apply containsSub_append_right
      apply containsSub_append_right
      apply containsSub_append_right
      apply containsSub_append_right
      apply containsSub_append_right
      apply containsSub_append_right
      apply containsSub_append_right
      apply containsSub_append_right
      apply containsSub_append_right
      apply containsSub_append_right
      exact containsSub_of_prefix
        ((show siteRefPat <+: "<InventorySiteRef><FullName>".data by decide).trans
          (List.prefix_append _ _))
  · intro hmaj hblank
    cases hb : build_adjustment_request event requestId defaultAdjustmentAccount
      qbxmlVersion freshUuid with
    | error e => exact ⟨e, rfl⟩
    | ok out =>
      exfalso
      obtain ⟨siteName, _, hss, _, _⟩ := build_adjustment_request_ok hb
      rw [decide_eq_true hmaj] at hss
      have hnames := single_site_name_ok_required hss
      have hnil : siteNames Line.siteFullName event.lines = [] :=
        siteNamesFrom_blank event.lines [] hblank
      rw [show siteNames Line.siteFullName event.lines = [siteName] from hnames] at hnil
      exact List.noConfusion hnil

theorem C5_witness :
    containsSub siteRefPat
      ("<InventoryAdjustmentAddRq requestID=\"e1\"><InventoryAdjustmentAdd>" ++
        "<AccountRef><FullName>Acct</FullName></AccountRef>" ++
        "<TxnDate>2026-01-02</TxnDate>" ++
        "<InventorySiteRef><FullName>Main</FullName></InventorySiteRef>" ++
        "<Memo>adjustment e1</Memo>" ++
        "<ExternalGUID>\x7bUUID5:6BA7A811-9DAD-11D1-80B4-00C04FD430C8:190GROUP:E1\x7d</ExternalGUID>" ++
        "<InventoryAdjustmentLineAdd><ItemRef><FullName>A</FullName></ItemRef>" ++
        "<QuantityAdjustment><QuantityDifference>2</QuantityDifference></QuantityAdjustment>" ++
        "</InventoryAdjustmentLineAdd>" ++
        "</InventoryAdjustmentAdd></InventoryAdjustmentAddRq>").data = true ∧
    ¬ containsSub siteRefPat
      ("<InventoryAdjustmentAddRq requestID=\"e1\"><InventoryAdjustmentAdd>" ++
        "<AccountRef><FullName>Acct</FullName></AccountRef>" ++
        "<TxnDate>2026-01-02</TxnDate>" ++
        "<Memo>adjustment e1</Memo>" ++
        "<ExternalGUID>\x7bUUID5:6BA7A811-9DAD-11D1-80B4-00C04FD430C8:190GROUP:E1\x7d</ExternalGUID>" ++
        "<InventoryAdjustmentLineAdd><ItemRef><FullName>A</FullName></ItemRef>" ++
        "<QuantityAdjustment><QuantityDifference>2</QuantityDifference></QuantityAdjustment>" ++
        "</InventoryAdjustmentLineAdd>" ++
        "</InventoryAdjustmentAdd></InventoryAdjustmentAddRq>").data = true ∧
    (∃ msg, build_adjustment_request C5evNoSite "e1" "Acct" "13.0" "u" = .error msg) := by
  refine ⟨?_, ?_, ?_⟩
  · exact ((C5_adjustment_site_ref C5ev "e1" "Acct" "13.0" "u").1 _
      (by set_option maxRecDepth 8192 in decide)).mpr (by decide)
  · intro hc
    exact absurd (((C5_adjustment_site_ref C5ev "e1" "Acct" "9.0" "u").1 _
      (by set_option maxRecDepth 8192 in decide)).mp hc) (by decide)
  · exact (C5_adjustment_site_ref C5evNoSite "e1" "Acct" "13.0" "u").2
      (by decide) (by decide)

theorem rrxEventFinally_clears (s : Session) (eid : String) :
    (rrxEventFinally s eid).in_flight_request_kind = "" ∧
    (rrxEventFinally s eid).in_flight_event_id = none ∧
    (rrxEventFinally s eid).in_flight_txn_type = none ∧
    (rrxEventFinally s eid).in_flight_item_create = none ∧
    (rrxEventFinally s eid).last_request_xml = "" := by
  unfold rrxEventFinally
  split_ifs <;> exact ⟨rfl, rfl, rfl, rfl, rfl⟩

/-- C10: every call to `receive_response_xml` on a service-produced
session returns with the in-flight request state fully cleared —
request kind blank, event id, transaction type and item-create spec
`None`, and the last request body empty — in the item-query,
item-create and event branches, on their error paths, and on the
no-in-flight-event early return of 100. -/
theorem C10_receive_clears_in_flight (svc : Svc) (session : Session) (progress : Nat)
    (rx : RawXml) (hresult message : String) (hwf : WfSession session) :
    (receive_response_xml svc session progress rx hresult message).session.in_flight_request_kind
        = "" ∧
    (receive_response_xml svc session progress rx hresult message).session.in_flight_event_id
        = none ∧
    (receive_response_xml svc session progress rx hresult message).session.in_flight_txn_type
        = none ∧
    (receive_response_xml svc session progress rx hresult message).session.in_flight_item_create
        = none ∧
    (receive_response_xml svc session progress rx hresult message).session.last_request_xml
        = "" := by
  unfold receive_response_xml
  by_cases h1 : session.in_flight_request_kind = "item_query"
  · rw [if_pos h1]
    exact ⟨rfl, rfl, rfl, rfl, rfl⟩
  · rw [if_neg h1]
    by_cases h2 : session.in_flight_request_kind = "item_create"
    · rw [if_pos h2]
      exact ⟨rfl, rfl, rfl, rfl, rfl⟩
    · rw [if_neg h2]
      unfold rrxEvent
      by_cases h3 : session.in_flight_event_id.getD "" = ""
      · rw [if_pos h3]
        have hkind : session.in_flight_request_kind = "" := by
          rcases hwf.2.2 with h | h | h | h
          · exact h
          · exact absurd h h1
          · exact absurd h h2
          · exact absurd h3 (hwf.2.1 h)
        obtain ⟨he, ht, hx, hc⟩ := hwf.1 hkind
        exact ⟨hkind, he, ht, hc, hx⟩
      · rw [if_neg h3]
        obtain ⟨a, b, c, d, e⟩ := rrxEventFinally_clears
          (rrxEventBody session progress rx hresult message
            (session.in_flight_event_id.getD "")).1
          (session.in_flight_event_id.getD "")
        exact ⟨a, b, c, d, e⟩

theorem C10_witness :
    (receive_response_xml { } { } 100 ⟨"", none⟩ "" "").session.in_flight_request_kind = "" ∧
    (receive_response_xml { } { } 100 ⟨"", none⟩ "" "").session.in_flight_event_id = none ∧
    (receive_response_xml { } { } 100 ⟨"", none⟩ "" "").session.in_flight_txn_type = none ∧
    (receive_response_xml { } { } 100 ⟨"", none⟩ "" "").session.in_flight_item_create = none ∧
    (receive_response_xml { } { } 100 ⟨"", none⟩ "" "").session.last_request_xml = "" :=
  C10_receive_clears_in_flight { } { } 100 ⟨"", none⟩ "" ""
    ⟨fun _ => ⟨rfl, rfl, rfl, rfl⟩, fun h => absurd h (by decide), Or.inl rfl⟩

/-- C1: in the `item_query` branch, the catalog cache (the cached
inventory-part key and name sets) is replaced only when a page cycle
completes with remaining count zero and a non-empty accumulated key
set; a transport failure (non-blank hresult), a parse/processing
error, and a mid-cycle page all leave the previously cached sets
unchanged, the first two additionally resetting the query state. -/
theorem C1_catalog_cache_atomic (svc : Svc) (session : Session) (progress : Nat)
    (rx : RawXml) (hresult message : String)
    (hk : session.in_flight_request_kind = "item_query") :
    (pyStrip hresult ≠ "" →
      (receive_response_xml svc session progress rx hresult message).svc.cachedKeys
          = svc.cachedKeys ∧
      (receive_response_xml svc session progress rx hresult message).svc.cachedNames
          = svc.cachedNames ∧
      (receive_response_xml svc session progress rx hresult message).svc.queryInProgress
          = false ∧
      (receive_response_xml svc session progress rx hresult message).svc.queryIteratorId
          = "" ∧
      (receive_response_xml svc session progress rx hresult message).svc.queryAcc = [] ∧
      (receive_response_xml svc session progress rx hresult message).svc.queryNameAcc = []) ∧
    (pyStrip hresult = "" →
      ∀ e, parse_item_inventory_query_response rx = .error e →
      (receive_response_xml svc session progress rx hresult message).svc.cachedKeys
          = svc.cachedKeys ∧
      (receive_response_xml svc session progress rx hresult message).svc.cachedNames
          = svc.cachedNames ∧
      (receive_response_xml svc session progress rx hresult message).svc.queryInProgress
          = false ∧
      (receive_response_xml svc session progress rx hresult message).svc.queryIteratorId
          = "" ∧
      (receive_response_xml svc session progress rx hresult message).svc.queryAcc = [] ∧
      (receive_response_xml svc session progress rx hresult message).svc.queryNameAcc = []) ∧
    (∀ pk pn iid rem, pyStrip hresult = "" →
      parse_item_inventory_query_response rx = .ok (pk, pn, iid, rem) →
      (0 < rem →
        (receive_response_xml svc session progress rx hresult message).svc.cachedKeys
            = svc.cachedKeys ∧
        (receive_response_xml svc session progress rx hresult message).svc.cachedNames
            = svc.cachedNames) ∧
      (rem = 0 → setUnion svc.queryAcc pk ≠ [] →
        (receive_response_xml svc session progress rx hresult message).svc.cachedKeys
            = setUnion svc.queryAcc pk ∧
        (receive_response_xml svc session progress rx hresult message).svc.cachedNames
            = setUnion svc.queryNameAcc pn ∧
        (receive_response_xml svc session progress rx hresult message).svc.queryInProgress
            = false ∧
        (receive_response_xml svc session progress rx hresult message).svc.queryAcc = []) ∧
      (rem = 0 → setUnion svc.queryAcc pk = [] →
        (receive_response_xml svc session progress rx hresult message).svc.cachedKeys
            = svc.cachedKeys ∧
        (receive_response_xml svc session progress rx hresult message).svc.cachedNames
            = svc.cachedNames ∧
        (receive_response_xml svc session progress rx hresult message).svc.queryInProgress
            = false ∧
        (receive_response_xml svc session progress rx hresult message).svc.queryAcc = [])) := by
  have hr : receive_response_xml svc session progress rx hresult message =
      rrxItemQuery svc session progress rx hresult message := by
    unfold receive_response_xml
    rw [hk, if_pos rfl]
  rw [hr]
  refine ⟨?_, ?_, ?_⟩
  · intro hh
    unfold rrxItemQuery rrxItemQueryBody
    rw [if_pos hh]
    split_ifs with hsw
    · exact ⟨rfl, rfl, rfl, rfl, rfl, rfl⟩
    · exact ⟨rfl, rfl, rfl, rfl, rfl, rfl⟩
  · intro hh e he
    unfold rrxItemQuery rrxItemQueryBody
    rw [if_neg (fun hc => hc hh)]
    simp only [he]
    exact ⟨rfl, rfl, rfl, rfl, rfl, rfl⟩
  · intro pk pn iid rem hh hok
    unfold rrxItemQuery rrxItemQueryBody
    rw [if_neg (fun hc => hc hh)]
    simp only [hok]
    refine ⟨?_, ?_, ?_⟩
    · intro hrem
      rw [if_pos hrem]
      split_ifs with hiid
      · exact ⟨rfl, rfl⟩
      · exact ⟨rfl, rfl⟩
    · intro hrem hne
      subst hrem
      rw [if_neg (Nat.lt_irrefl 0), if_neg hne]
      exact ⟨rfl, rfl, rfl, rfl⟩
    · intro hrem heq
      subst hrem
      rw [if_neg (Nat.lt_irrefl 0), if_pos heq]
      exact ⟨rfl, rfl, rfl, rfl⟩

theorem C1_witness :
    (receive_response_xml { } C1sess 100 C1rx "" "").svc.cachedKeys = ["widget"] ∧
    (receive_response_xml { } C1sess 100 C1rx "" "").svc.cachedNames = ["Widget"] ∧
    (receive_response_xml C1svcOld C1sess 100 C1rx "0x80040400" "boom").svc.cachedKeys
      = ["old"] ∧
    (receive_response_xml C1svcOld C1sess 100 C1rx "0x80040400" "boom").svc.queryAcc = [] := by
  obtain ⟨h1, h2, _, _⟩ :=
    ((C1_catalog_cache_atomic { } C1sess 100 C1rx "" "" rfl).2.2
      ["widget"] ["Widget"] "" 0 rfl (by decide)).2.1 rfl (by decide)
  obtain ⟨h3, _, _, _, h4, _⟩ :=
    (C1_catalog_cache_atomic C1svcOld C1sess 100 C1rx "0x80040400" "boom" rfl).1 (by decide)
  exact ⟨h1.trans (by decide), h2.trans (by decide), h3.trans (by decide), h4⟩

/-- C6: in the `item_create` branch, a successful response and a
duplicate-name (3100) response take the same path — the created item
name is remembered in the catalog cache, no failure is reported, the
pending event and queue survive, and 0 is returned whenever a queued
creation or the pending event remains; any other parsed failure
reports the owning event as failed and retryable and discards the
pending event and creation queue (as does a transport failure). -/
theorem C6_item_create_duplicate_is_success (svc : Svc) (session : Session)
    (progress : Nat) (rx : RawXml) (hresult message : String)
    (hk : session.in_flight_request_kind = "item_create") :
    (pyStrip hresult = "" →
      ((parse_qbxml_response rx).success = true ∨
        is_duplicate_item_name_conflict (parse_qbxml_response rx).status_code = true) →
      (receive_response_xml svc session progress rx hresult message).svc =
        (if itemCreateItemName session ≠ "" then
          cache_created_item_name svc (itemCreateItemName session)
        else svc) ∧
      (receive_response_xml svc session progress rx hresult message).applied = [] ∧
      (receive_response_xml svc session progress rx hresult message).session.pending_event
          = session.pending_event ∧
      (receive_response_xml svc session progress rx hresult
          message).session.pending_item_create_queue = session.pending_item_create_queue ∧
      ((session.pending_item_create_queue ≠ [] ∨ session.pending_event ≠ none) →
        (receive_response_xml svc session progress rx hresult message).ret = 0)) ∧
    (pyStrip hresult = "" →
      (parse_qbxml_response rx).success = false →
      is_duplicate_item_name_conflict (parse_qbxml_response rx).status_code = false →
      (receive_response_xml svc session progress rx hresult message).svc = svc ∧
      (receive_response_xml svc session progress rx hresult message).session.pending_event
          = none ∧
      (receive_response_xml svc session progress rx hresult
          message).session.pending_item_create_queue = [] ∧
      (receive_response_xml svc session progress rx hresult message).applied =
        applyIf (itemCreateEventId session)
          ⟨itemCreateEventId session, false, none, session.in_flight_txn_type,
            some (parse_qbxml_response rx).status_code,
            some (qbReportedMessage (parse_qbxml_response rx)), some true⟩) ∧
    (pyStrip hresult ≠ "" →
      (receive_response_xml svc session progress rx hresult message).svc = svc ∧
      (receive_response_xml svc session progress rx hresult message).session.pending_event
          = none ∧
      (receive_response_xml svc session progress rx hresult
          message).session.pending_item_create_queue = [] ∧
      (receive_response_xml svc session progress rx hresult message).applied =
        applyIf (itemCreateEventId session)
          ⟨itemCreateEventId session, false, none, session.in_flight_txn_type,
            some (pyStrip (orText hresult "HRESULT_ERROR")),
            some (hresultMessage message), some true⟩) := by
  have hr : receive_response_xml svc session progress rx hresult message =
      rrxItemCreate svc session progress rx hresult message := by
    unfold receive_response_xml
    rw [hk]
    rw [if_neg (by decide), if_pos rfl]
  rw [hr]
  refine ⟨?_, ?_, ?_⟩
  · intro hh hs
    unfold rrxItemCreate rrxItemCreateBody
    rw [if_neg (fun hc => hc hh), if_pos hs]
    refine ⟨rfl, rfl, rfl, rfl, ?_⟩
    intro hp
    rw [if_pos hp]
  · intro hh hs hd
    unfold rrxItemCreate rrxItemCreateBody
    rw [if_neg (fun hc => hc hh),
      if_neg (fun hc => by rcases hc with hc | hc
                           · rw [hc] at hs; exact Bool.noConfusion hs
                           · rw [hc] at hd; exact Bool.noConfusion hd)]
    exact ⟨rfl, rfl, rfl, rfl⟩
  · intro hh
    unfold rrxItemCreate rrxItemCreateBody
    rw [if_pos hh]
    exact ⟨rfl, rfl, rfl, rfl⟩

theorem C6_witness :
    (receive_response_xml { } C6sess 100 C6rxDup "" "").svc.cachedKeys = ["widget"] ∧
    (receive_response_xml { } C6sess 100 C6rxDup "" "").ret = 0 ∧
    (receive_response_xml { } C6sess 100 C6rxDup "" "").applied = [] ∧
    (receive_response_xml { } C6sess 100 C6rxFail "" "").applied =
      [⟨"e1", false, none, none, some "500", some "bad", some true⟩] ∧
    (receive_response_xml { } C6sess 100 C6rxFail "" "").session.pending_event = none := by
  obtain ⟨hsvc, happ, _, _, hret⟩ :=
    (C6_item_create_duplicate_is_success { } C6sess 100 C6rxDup "" "" rfl).1 rfl
      (Or.inr (by decide))
  obtain ⟨_, hpe, _, happF⟩ :=
    (C6_item_create_duplicate_is_success { } C6sess 100 C6rxFail "" "" rfl).2.1 rfl
      (by decide) (by decide)
  exact ⟨(congrArg Svc.cachedKeys hsvc).trans (by decide),
    hret (Or.inr (by decide)), happ, happF.trans (by decide), hpe⟩

/-- C7: during the batch scan, an exception while preparing or building
a request for a fetched event makes the scan report that event to the
queue client as a failed outcome with error code BUILD_ERROR and
retryable false, clear the pending-event state, record the error, and
continue with the remaining candidate events instead of aborting. -/
theorem C7_build_error_scan_continues (ctx : ScanCtx) (session s2 : Session)
    (ev : Event) (rest : List Event) (acc : List ApplyResult) (e : String)
    (hstep : scanStep ctx session ev = .failedStep s2 e) :
    sendScanLoop ctx session (ev :: rest) acc =
      sendScanLoop ctx
        { clearPendingEvent s2 with
          lastError := "sendRequestXML build error for event " ++ ev.eventId.getD "" ++
            ": " ++ e }
        rest
        (acc ++ [⟨ev.eventId.getD "", false, none, ev.qbTxnType, some "BUILD_ERROR",
          some ("sendRequestXML build error: " ++ e), some false⟩]) := by
  simp only [sendScanLoop, hstep]

theorem C7_witness :
    (sendScanLoop C7ctx { } [C7evBad] []).applied =
      [⟨"e1", false, none, none, some "BUILD_ERROR",
        some "sendRequestXML build error: Adjustment event missing effectiveDate.",
        some false⟩] ∧
    (sendScanLoop C7ctx { } [C7evBad] []).response = "" := by
  have h := C7_build_error_scan_continues C7ctx { } { } C7evBad [] []
    "Adjustment event missing effectiveDate." (by set_option maxRecDepth 8192 in decide)
  exact ⟨(congrArg ScanResult.applied h).trans (by decide),
    (congrArg ScanResult.response h).trans (by decide)⟩
